import Mathlib

/-!
Verification development for the wiki retrieval and extraction engine of the
Farmhand repository (`src/mcp_servers/stardew_wiki_mcp.py`).

The Python source is shallowly embedded: pure functions become Lean functions,
stateful code (cache, HTTP-call counters) becomes explicit state passing, and
the network is an oracle parameter.  Machine integers are modelled by `Int` /
`Nat` (Python integers are unbounded, so no wrap-around is needed).  Python
string operations are modelled over `List Char` with ASCII semantics, which is
faithful for every string the engine manipulates.
-/

namespace Farmhand

/-! ## Python string semantics

Helpers mirroring the exact Python `str` operations used by the source file.
All operate on `List Char`; `String` wrappers are provided where convenient.
-/

/-- Whitespace characters recognised by Python `str.strip()` / `str.split()`
(ASCII subset: space, tab, LF, CR, VT, FF). -/
def isPyWs (c : Char) : Bool :=
  c = ' ' || c = '\t' || c = '\n' || c = '\r' || c = Char.ofNat 11 || c = Char.ofNat 12

/-- Word character for the `\w` regex class (ASCII: alphanumeric or underscore). -/
def isWordChar (c : Char) : Bool :=
  c.isAlphanum || c = '_'

/-- The apostrophe character (written via its code point to keep the source
plain ASCII). -/
def apos : Char := Char.ofNat 39

/-- The apostrophe as a one-character string. -/
def aposS : String := String.mk [apos]

/-- Python `str.lower()` (ASCII case mapping). -/
def pyLower (s : String) : String :=
  String.mk (s.data.map Char.toLower)

/-- Python `str.strip()`: drop leading and trailing whitespace. -/
def pyStrip (s : String) : String :=
  String.mk (((s.data.dropWhile isPyWs).reverse.dropWhile isPyWs).reverse)

/-- Python `str.title()` on a character list: a cased character that follows a
non-cased character is uppercased, every other cased character is lowercased. -/
def pyTitleCs : List Char → Bool → List Char
  | [], _ => []
  | c :: cs, prevCased =>
    if c.isAlpha then
      (if prevCased then c.toLower else c.toUpper) :: pyTitleCs cs true
    else
      c :: pyTitleCs cs false

/-- Python `str.title()`. -/
def pyTitle (s : String) : String :=
  String.mk (pyTitleCs s.data false)

/-- Python `str.rstrip("d")`: drop trailing `d` characters. -/
def pyRstripD (s : String) : String :=
  String.mk ((s.data.reverse.dropWhile (fun c => c = 'd')).reverse)

/-- Decide whether `pre` is a prefix of `cs` (Python `str.startswith` on lists). -/
def csStartsWith : List Char → List Char → Bool
  | _, [] => true
  | [], _ :: _ => false
  | c :: cs, p :: ps => c = p && csStartsWith cs ps

/-- Python substring test `sub in hay` on character lists (empty `sub` is `True`). -/
def csContains (hay sub : List Char) : Bool :=
  match hay with
  | [] => csStartsWith [] sub
  | _ :: rest => csStartsWith hay sub || csContains rest sub

/-- Python substring test `sub in hay` on strings. -/
def strContains (hay sub : String) : Bool :=
  csContains hay.data sub.data

/-- Case-insensitive substring test, modelling `re.search(re.compile(pat, re.I), s)`
for a literal pattern `pat`. -/
def strContainsCi (hay sub : String) : Bool :=
  strContains (pyLower hay) (pyLower sub)

/-- Python `str.startswith` on strings. -/
def strStartsWith (s pre : String) : Bool :=
  csStartsWith s.data pre.data

/-- Scan a suffix list for the first position (counted from `i`) where `sub`
starts; helper for Python `str.find`. -/
def csFindAux (sub : List Char) : List Char → Nat → Option Nat
  | [], i => if sub = [] then some i else none
  | c :: cs, i =>
    if csStartsWith (c :: cs) sub then some i else csFindAux sub cs (i + 1)

/-- Python `str.find(sub, start)` (`none` models Python's `-1`). -/
def strFindFrom (hay sub : String) (start : Nat) : Option Nat :=
  if start ≤ hay.data.length then csFindAux sub.data (hay.data.drop start) start else none

/-- Python `str.find(sub)`. -/
def strFind (hay sub : String) : Option Nat :=
  strFindFrom hay sub 0

/-- Python slice `s[i:j]` (ASCII positions). -/
def strSlice (s : String) (i j : Nat) : String :=
  String.mk ((s.data.take j).drop i)

/-- Word accumulator for `pySplitWs` (structural single pass; the accumulator
holds the current word reversed). -/
def pySplitWsAux : List Char → List Char → List String
  | [], acc => if acc = [] then [] else [String.mk acc.reverse]
  | c :: cs, acc =>
    if isPyWs c then
      if acc = [] then pySplitWsAux cs []
      else String.mk acc.reverse :: pySplitWsAux cs []
    else pySplitWsAux cs (c :: acc)

/-- Python `str.split()` with no argument: split on whitespace runs, dropping
empty fields (the words are the maximal non-whitespace runs, in order). -/
def pySplitWs (s : String) : List String :=
  pySplitWsAux s.data []

/-- Python `str.split(sep)` for a one-character separator (keeps empty fields). -/
def csSplitOn (sep : Char) : List Char → List (List Char)
  | [] => [[]]
  | c :: cs =>
    if c = sep then [] :: csSplitOn sep cs
    else
      match csSplitOn sep cs with
      | [] => [[c]]
      | f :: rest => (c :: f) :: rest

/-- Python `str.split(sep)` on strings. -/
def pySplitOn (s : String) (sep : Char) : List String :=
  (csSplitOn sep s.data).map String.mk

/-- Python `str.replace(old, new)` for a one-character `old`. -/
def strReplaceChar (s : String) (old : Char) (new : List Char) : String :=
  String.mk (s.data.flatMap (fun c => if c = old then new else [c]))

/-- Python `int(...)` on a string of decimal digits. -/
def digitsToNat (ds : List Char) : Nat :=
  ds.foldl (fun n c => n * 10 + (c.toNat - 48)) 0

/-- Python `str.isdigit()` (ASCII digits, non-empty). -/
def pyIsDigit (s : String) : Bool :=
  s.data ≠ [] && s.data.all Char.isDigit

/-! ## Hand-compiled regular expressions

Each `re` pattern appearing in the source is compiled by hand to a scanner
over `List Char`.  All patterns are of a restricted shape (literal pieces,
alternations of literals, maximal character-class runs followed by characters
outside the class) for which greedy matching without backtracking agrees with
Python `re` semantics; this is noted per matcher.
-/

/-- Leftmost match of `re.search(r"(\d+)", s)`: the first maximal digit run. -/
def firstDigitRunCs : List Char → Option (List Char)
  | [] => none
  | c :: cs =>
    if c.isDigit then some ((c :: cs).takeWhile Char.isDigit)
    else firstDigitRunCs cs

/-- Value of the first digit run of a string (`re.search(r"(\d+)", s)` + `int`). -/
def firstIntRun (s : String) : Option Int :=
  (firstDigitRunCs s.data).map (fun ds => (digitsToNat ds : Int))

/-- String form of the first digit run (the source inspects `len(numbers[0])`). -/
def firstDigitRunStr (s : String) : Option String :=
  (firstDigitRunCs s.data).map String.mk

/-- Leftmost match of `re.search(r"(\d+)g", s)`: a digit run immediately
followed by `g`.  A failed maximal run cannot be rescued by backtracking
(a shorter run is followed by a digit, not `g`), so the scan advances one
position at a time exactly like `re.search`. -/
def digitRunBeforeGCs : List Char → Option (List Char)
  | [] => none
  | c :: cs =>
    if c.isDigit then
      match (c :: cs).dropWhile Char.isDigit with
      | 'g' :: _ => some ((c :: cs).takeWhile Char.isDigit)
      | _ => digitRunBeforeGCs cs
    else digitRunBeforeGCs cs

/-- Numeric value of `re.search(r"(\d+)g", s)`. -/
def intRunBeforeG (s : String) : Option Int :=
  (digitRunBeforeGCs s.data).map (fun ds => (digitsToNat ds : Int))

/-- Leftmost match of `re.search(r"(\d+)\s*m", s)`: digit run, optional
whitespace, then `m` (used for processing minutes). -/
def digitRunBeforeMCs : List Char → Option (List Char)
  | [] => none
  | c :: cs =>
    if c.isDigit then
      match ((c :: cs).dropWhile Char.isDigit).dropWhile isPyWs with
      | 'm' :: _ => some ((c :: cs).takeWhile Char.isDigit)
      | _ => digitRunBeforeMCs cs
    else digitRunBeforeMCs cs

/-- Numeric value of `re.search(r"(\d+)\s*m", s)`. -/
def intRunBeforeM (s : String) : Option Int :=
  (digitRunBeforeMCs s.data).map (fun ds => (digitsToNat ds : Int))

/-- Leftmost match of `re.search(r"Level (\d+)", s)`, returning the level. -/
def levelNumCs : List Char → Option Nat
  | [] => none
  | c :: cs =>
    if csStartsWith (c :: cs) "Level ".data then
      match (c :: cs).drop 6 with
      | d :: ds =>
        if d.isDigit then some (digitsToNat ((d :: ds).takeWhile Char.isDigit))
        else levelNumCs cs
      | [] => levelNumCs cs
    else levelNumCs cs

/-- Leftmost match of `re.search(r"Level (\d+)", s)` on strings. -/
def searchLevelNum (s : String) : Option Nat :=
  levelNumCs s.data

/-- Leftmost match of `re.search(r"(\w+)\s+Heart", s, re.IGNORECASE)`: a word
run, at least one whitespace, then `heart` case-insensitively. -/
def heartWordCs : List Char → Option (List Char)
  | [] => none
  | c :: cs =>
    if isWordChar c then
      let rest := (c :: cs).dropWhile isWordChar
      let rest2 := rest.dropWhile isPyWs
      if rest.takeWhile isPyWs ≠ [] ∧
          csStartsWith (rest2.map Char.toLower) "heart".data then
        some ((c :: cs).takeWhile isWordChar)
      else heartWordCs cs
    else heartWordCs cs

/-- Leftmost match of the heart-level pattern on strings. -/
def searchHeartWord (s : String) : Option String :=
  (heartWordCs s.data).map String.mk

/-- Character class `[A-Za-z\s]` of the ingredient pattern. -/
def isIngChar (c : Char) : Bool :=
  c.isAlpha || isPyWs c

/-- Generic scanner for `re.findall` with non-empty, non-overlapping matches:
`tryAt` returns the payload and the total match length minus one.  Structural
recursion on a fuel that starts at the input length; every step consumes at
least one character, so the fuel never runs out. -/
def scanMatchesF {β : Type} (tryAt : List Char → Option (β × Nat)) :
    Nat → List Char → List β
  | 0, _ => []
  | _ + 1, [] => []
  | fuel + 1, c :: cs =>
    match tryAt (c :: cs) with
    | some (b, L) => b :: scanMatchesF tryAt fuel (cs.drop L)
    | none => scanMatchesF tryAt fuel cs

/-- Scanner for `re.findall`; see `scanMatchesF`. -/
def scanMatches {β : Type} (tryAt : List Char → Option (β × Nat))
    (cs : List Char) : List β :=
  scanMatchesF tryAt cs.length cs

/-- Attempt the ingredient pattern `([A-Za-z\s]+)\((\d+)\)` at the current
position.  The class run is maximal (the following `(` is outside the class),
and the digit run is maximal (`)` is not a digit), so no backtracking arises. -/
def tryIngredientAt (cs : List Char) : Option ((String × Int) × Nat) :=
  match cs with
  | [] => none
  | c :: _ =>
    if isIngChar c then
      let run := cs.takeWhile isIngChar
      match cs.dropWhile isIngChar with
      | '(' :: r2 =>
        match r2 with
        | d :: _ =>
          if d.isDigit then
            let ds := r2.takeWhile Char.isDigit
            match r2.dropWhile Char.isDigit with
            | ')' :: _ =>
              some ((String.mk run, (digitsToNat ds : Int)),
                run.length + 1 + ds.length + 1 - 1)
            | _ => none
          else none
        | [] => none
      | _ => none
    else none

/-- Python `re.findall(r"([A-Za-z\s]+)\((\d+)\)", s)` with `int` applied to the
quantity group.  `scanMatches` consumes `L` extra characters after the head
one, hence the `- 1` in `tryIngredientAt`. -/
def findAllIngredients (s : String) : List (String × Int) :=
  scanMatches tryIngredientAt s.data

/-- Generic scanner for `re.search`: try the pattern at every position, left
to right (also at the empty suffix, where none of our patterns can match). -/
def scanFor {β : Type} (tryAt : List Char → Option β) : List Char → Option β
  | [] => tryAt []
  | c :: cs =>
    match tryAt (c :: cs) with
    | some b => some b
    | none => scanFor tryAt cs

/-- Fuel-indexed scanner for `re.sub(pat, "", s)` with non-empty matches:
`tryAt` returns the total match length; matched text is deleted and scanning
resumes after the match (Python replaces non-overlapping leftmost matches).
Every step consumes at least one character, so fuel `length` suffices. -/
def pySubAllF (tryAt : List Char → Option Nat) : Nat → List Char → List Char
  | 0, cs => cs
  | _ + 1, [] => []
  | fuel + 1, c :: cs =>
    match tryAt (c :: cs) with
    | some (L + 1) => pySubAllF tryAt fuel (cs.drop L)
    | _ => c :: pySubAllF tryAt fuel cs

/-- Scanner for `re.sub(pat, "", s)`; see `pySubAllF`. -/
def pySubAll (tryAt : List Char → Option Nat) (cs : List Char) : List Char :=
  pySubAllF tryAt cs.length cs

/-- Drop a literal prefix, returning the remainder. -/
def dropLit : List Char → List Char → Option (List Char)
  | [], cs => some cs
  | _ :: _, [] => none
  | l :: ls, c :: cs => if c = l then dropLit ls cs else none

/-- Drop a literal string prefix. -/
def dropLitS (lit : String) (cs : List Char) : Option (List Char) :=
  dropLit lit.data cs

/-- Try several literal alternatives in order (regex alternation of literals),
returning the remainder after the first that matches. -/
def dropAlts : List String → List Char → Option (List Char)
  | [], _ => none
  | a :: as_, cs =>
    match dropLitS a cs with
    | some r => some r
    | none => dropAlts as_ cs

/-- Maximal non-empty `\w+` run at the current position. -/
def wordRun (cs : List Char) : Option (List Char × List Char) :=
  match cs with
  | [] => none
  | c :: _ =>
    if isWordChar c then some (cs.takeWhile isWordChar, cs.dropWhile isWordChar)
    else none

/-! ## QueryPreprocessor (`preprocess_query`, source lines 336-464)

Each regex of the source is hand-compiled.  Where an alternation appears, the
alternatives are tried in the source order; for every pattern below the
alternatives are mutually exclusive on any input (they differ within their
common literal span), so committing to the first alternative that matches is
equivalent to full backtracking.  Maximal character-class runs are always
followed by a pattern character outside the class, so greedy runs need no
backtracking either.
-/

/-- Pattern `what (?:does|do) (\w+) (?:like|love|hate|want)` at one position. -/
def tryGift1 (cs : List Char) : Option (List Char) :=
  match dropAlts ["what does ", "what do "] cs with
  | none => none
  | some r =>
    match wordRun r with
    | none => none
    | some (w, r2) =>
      match dropLitS " " r2 with
      | none => none
      | some r3 =>
        if (dropAlts ["like", "love", "hate", "want"] r3).isSome then some w else none

/-- Pattern `(\w+)'s? (?:favorite|liked|loved|hated) (?:gift|item|thing)` at one
position.  The optional `s` is committed when present: if taking it fails, the
alternative (a space) cannot match the `s` either. -/
def tryGift2 (cs : List Char) : Option (List Char) :=
  match wordRun cs with
  | none => none
  | some (w, r) =>
    match dropLit [apos] r with
    | none => none
    | some r1 =>
      let r2 := match r1 with
        | c :: rest => if c = 's' then rest else r1
        | [] => r1
      match dropLitS " " r2 with
      | none => none
      | some r3 =>
        match dropAlts ["favorite ", "liked ", "loved ", "hated "] r3 with
        | none => none
        | some r4 =>
          if (dropAlts ["gift", "item", "thing"] r4).isSome then some w else none

/-- Pattern `gift(?:s)? for (\w+)` at one position. -/
def tryGift3 (cs : List Char) : Option (List Char) :=
  match dropAlts ["gifts for ", "gift for "] cs with
  | none => none
  | some r => (wordRun r).map (fun p => p.1)

/-- Pattern `best gift for (\w+)` at one position. -/
def tryGift4 (cs : List Char) : Option (List Char) :=
  match dropLitS "best gift for " cs with
  | none => none
  | some r => (wordRun r).map (fun p => p.1)

/-- The gift-preference rules of Pattern 1, tried in source order; returns the
captured NPC-name group of the first pattern that matches. -/
def giftSearch (ql : List Char) : Option (List Char) :=
  match scanFor tryGift1 ql with
  | some w => some w
  | none =>
    match scanFor tryGift2 ql with
    | some w => some w
    | none =>
      match scanFor tryGift3 ql with
      | some w => some w
      | none => scanFor tryGift4 ql

/-- Pattern `crops? (?:in|for|during) (\w+)` at one position. -/
def tryCrop1 (cs : List Char) : Option (List Char) :=
  match dropAlts ["crops ", "crop "] cs with
  | none => none
  | some r =>
    match dropAlts ["in ", "for ", "during "] r with
    | none => none
    | some r2 => (wordRun r2).map (fun p => p.1)

/-- Pattern `(\w+) crops?` at one position (the trailing optional `s` imposes
no constraint). -/
def tryCrop2 (cs : List Char) : Option (List Char) :=
  match wordRun cs with
  | none => none
  | some (w, r) => if (dropLitS " crop" r).isSome then some w else none

/-- Pattern `what (?:to|can i) plant (?:in|during) (\w+)` at one position. -/
def tryCrop3 (cs : List Char) : Option (List Char) :=
  match dropAlts ["what to plant ", "what can i plant "] cs with
  | none => none
  | some r =>
    match dropAlts ["in ", "during "] r with
    | none => none
    | some r2 => (wordRun r2).map (fun p => p.1)

/-- The four season names recognised by Pattern 3 of `preprocess_query`. -/
def seasonTitles : List String := ["Spring", "Summer", "Fall", "Winter"]

/-- Pattern 3 of `preprocess_query`: try the three crop/season patterns in
order; a pattern whose captured season is not one of the four (or when the
query lacks the substring `crop`) does not return, and the loop continues. -/
def cropStrategies (ql : List Char) (cropIn : Bool) :
    List (List Char → Option (List Char)) → Option (List String)
  | [] => none
  | m :: ms =>
    match m ql with
    | some w =>
      if cropIn then
        let season := pyTitle (String.mk w)
        if seasonTitles.contains season then
          some [season ++ " Crops", season, "crops"]
        else cropStrategies ql cropIn ms
      else cropStrategies ql cropIn ms
    | none => cropStrategies ql cropIn ms

/-- The crop/season matchers of Pattern 3 in source order. -/
def cropMatchers : List (List Char → Option (List Char)) :=
  [scanFor tryCrop1, scanFor tryCrop2, scanFor tryCrop3]

/-- Greedy `.+` capture to the end of the line: the rest of the input up to a
newline, required non-empty. -/
def restCap (cs : List Char) : Option (List Char) :=
  let r := cs.takeWhile (fun c => c ≠ '\n')
  if r = [] then none else some r

/-- Pattern `where (?:to find|can i (?:find|get)) (.+)` at one position. -/
def tryLoc1 (cs : List Char) : Option (List Char) :=
  (dropAlts ["where to find ", "where can i find ", "where can i get "] cs).bind restCap

/-- Pattern `how (?:to|do i) (?:get|obtain|find) (.+)` at one position. -/
def tryLoc2 (cs : List Char) : Option (List Char) :=
  (dropAlts ["how to get ", "how to obtain ", "how to find ",
    "how do i get ", "how do i obtain ", "how do i find "] cs).bind restCap

/-- Pattern `location of (.+)` at one position. -/
def tryLoc3 (cs : List Char) : Option (List Char) :=
  (dropLitS "location of " cs).bind restCap

/-- Pattern 4 of `preprocess_query`: the three location patterns in order. -/
def locSearch (ql : List Char) : Option (List Char) :=
  match scanFor tryLoc1 ql with
  | some w => some w
  | none =>
    match scanFor tryLoc2 ql with
    | some w => some w
    | none => scanFor tryLoc3 ql

/-- Length of the alternatives of `(?:for|to complete) ` when one starts the
remainder (the `for` alternative is tried first, as in the source pattern). -/
def needSuffixLen (r : List Char) : Option Nat :=
  if csStartsWith r " need for ".data then some " need for ".length
  else if csStartsWith r " need to complete ".data then some " need to complete ".length
  else none

/-- Greedy split for `does .+ need (?:for|to complete) `: the largest `j` with
`1 ≤ j`, no newline among the first `j` characters, and the suffix alternation
starting at position `j`; returns the full matched length from `j` on. -/
def greedyNeedSplit (r : List Char) : Nat → Option Nat
  | 0 => none
  | j + 1 =>
    if (r.take (j + 1)).all (fun c => c ≠ '\n') then
      match needSuffixLen (r.drop (j + 1)) with
      | some L => some (j + 1 + L)
      | none => greedyNeedSplit r j
    else greedyNeedSplit r j

/-- Match length of `what (?:do i|does .+) need (?:for|to complete) ` at one
position (the `do i` alternative is tried before `does .+`, as `re` does). -/
def tryB1 (cs : List Char) : Option Nat :=
  if csStartsWith cs "what do i need for ".data then some "what do i need for ".length
  else if csStartsWith cs "what do i need to complete ".data then
    some "what do i need to complete ".length
  else
    match dropLitS "what does " cs with
    | none => none
    | some r => (greedyNeedSplit r r.length).map (fun t => "what does ".length + t)

/-- Match length of `(?:items for|requirements for) ` at one position. -/
def tryB2 (cs : List Char) : Option Nat :=
  if csStartsWith cs "items for ".data then some "items for ".length
  else if csStartsWith cs "requirements for ".data then some "requirements for ".length
  else none

/-- Match length of `when is (?:the )?` at one position (greedy option). -/
def tryF1 (cs : List Char) : Option Nat :=
  if csStartsWith cs "when is the ".data then some "when is the ".length
  else if csStartsWith cs "when is ".data then some "when is ".length
  else none

/-- Match length of `what (?:happens at|is) (?:the )?` at one position. -/
def tryF2 (cs : List Char) : Option Nat :=
  if csStartsWith cs "what happens at the ".data then some "what happens at the ".length
  else if csStartsWith cs "what happens at ".data then some "what happens at ".length
  else if csStartsWith cs "what is the ".data then some "what is the ".length
  else if csStartsWith cs "what is ".data then some "what is ".length
  else none

/-- Match length of `(?:how to complete|requirements for) ` at one position. -/
def tryQ1 (cs : List Char) : Option Nat :=
  if csStartsWith cs "how to complete ".data then some "how to complete ".length
  else if csStartsWith cs "requirements for ".data then some "requirements for ".length
  else none

/-- The filler words removed by Pattern 8 of `preprocess_query`. -/
def fillerWords : List String :=
  ["the", "a", "an", "in", "on", "at", "to", "for", "of", "with",
   "is", "are", "was", "were", "can", "i", "you", "what", "where",
   "when", "how", "do", "does", "did"]

/-- The stop-word-filtered keywords extracted by Pattern 8 from a query. -/
def keywordsOf (q : String) : List String :=
  (pySplitWs (pyStrip (pyLower q))).filter
    (fun w => !(fillerWords.contains w) && decide (w.length > 2))

/-- Embedding of `preprocess_query` (source lines 336-464). -/
def preprocess_query (query : String) : List String :=
  let query_lower := pyStrip (pyLower query)
  let ql := query_lower.data
  match giftSearch ql with
  | some w =>
    let npc_name := pyTitle (String.mk w)
    [npc_name, npc_name ++ " gifts"]
  | none =>
    if strContains query_lower "birthday" then
      ["Calendar", "birthday"] ++
        ((["spring", "summer", "fall", "winter"].find?
          (fun s => strContains query_lower s)).toList)
    else
      match cropStrategies ql (strContains query_lower "crop") cropMatchers with
      | some strat => strat
      | none =>
        match locSearch ql with
        | some item0 =>
          let item := pyStrip (String.mk item0)
          [pyTitle item, item]
        | none =>
          if strContains query_lower "bundle" then
            let bundle_query := String.mk (pySubAll tryB2 (pySubAll tryB1 ql))
            [pyTitle bundle_query, "bundles"]
          else if strContains query_lower "festival" || strContains query_lower "event" then
            let festival_query := String.mk (pySubAll tryF2 (pySubAll tryF1 ql))
            [pyTitle festival_query, "festivals"]
          else if strContains query_lower "quest" then
            let quest_query := String.mk (pySubAll tryQ1 ql)
            [pyTitle quest_query, "quests"]
          else
            let keywords := keywordsOf query
            let strategies :=
              (if keywords.length > 1 then
                [String.intercalate " " (keywords.map pyTitle)]
              else []) ++ keywords.map pyTitle
            if strategies = [] then [pyTitle query, pyLower query] else strategies

/-- Decision that none of the seven pattern rules of `preprocess_query` fires
on a query (used to state the last-resort clause of the specification). -/
def noRuleMatches (q : String) : Bool :=
  let query_lower := pyStrip (pyLower q)
  let ql := query_lower.data
  (giftSearch ql).isNone &&
  !(strContains query_lower "birthday") &&
  (cropStrategies ql (strContains query_lower "crop") cropMatchers).isNone &&
  (locSearch ql).isNone &&
  !(strContains query_lower "bundle") &&
  !(strContains query_lower "festival" || strContains query_lower "event") &&
  !(strContains query_lower "quest")

/-! ## PageClassifier (`detect_page_type`, source lines 814-880) -/

/-- The skill names recognised by exact title or exact category match. -/
def skill_names : List String :=
  ["farming", "mining", "foraging", "fishing", "combat", "luck"]

/-- The NPC names of the title-substring fallback. -/
def npc_name_list : List String :=
  ["abigail", "alex", "caroline", "clint", "demetrius",
   "elliott", "emily", "evelyn", "george", "gus",
   "haley", "harvey", "jas", "jodi", "kent",
   "leah", "lewis", "linus", "marnie", "maru",
   "pam", "penny", "pierre", "robin", "sam",
   "sebastian", "shane", "vincent", "willy", "wizard"]

/-- Embedding of `detect_page_type`.  Note the asymmetry of the source: the
quest/achievement/crop/... category checks are substring tests against each
category, while the skill category check `any(skill in cat_lower ...)` is a
membership test of the whole skill name in the category *list*. -/
def detect_page_type (categories : List String) (page_title : String) : String :=
  let cat_lower := categories.map pyLower
  let title_lower := pyLower page_title
  if title_lower = "quests" then "quests"
  else if title_lower = "achievements" then "achievements"
  else if skill_names.contains title_lower then "skill"
  else if cat_lower.any (fun c => strContains c "quest") then "quests"
  else if cat_lower.any (fun c => strContains c "achievement") then "achievements"
  else if skill_names.any (fun s => cat_lower.contains s) then "skill"
  else if cat_lower.any (fun c => strContains c "crop") then "crop"
  else if cat_lower.any (fun c => strContains c "villager" || strContains c "npc") then "npc"
  else if cat_lower.any (fun c => strContains c "bundle") then "bundle"
  else if cat_lower.any (fun c => strContains c "fish") then "fish"
  else if cat_lower.any (fun c =>
      strContains c "recipe" || strContains c "cooking" || strContains c "craftable") then
    "recipe"
  else if cat_lower.any (fun c => strContains c "artifact") then "artifact"
  else if cat_lower.any (fun c => strContains c "mineral") then "mineral"
  else if cat_lower.any (fun c => strContains c "monster") then "monster"
  else if strContains title_lower "bundle" then "bundle"
  else if npc_name_list.any (fun n => strContains title_lower n) then "npc"
  else "item"

/-! ## WikiCache (source lines 179-278)

Python dicts preserve insertion order; they are modelled as association lists
where update-in-place keeps the position, a new key is appended at the end,
`del` removes the entry, and `next(iter(d))` is the head key.
-/

/-- Dict lookup. -/
def dictFind {α : Type} : List (String × α) → String → Option α
  | [], _ => none
  | (k, v) :: rest, key => if k = key then some v else dictFind rest key

/-- Dict assignment `d[key] = v`: update in place, or append a new key. -/
def dictInsert {α : Type} : List (String × α) → String → α → List (String × α)
  | [], key, v => [(key, v)]
  | (k, w) :: rest, key, v =>
    if k = key then (k, v) :: rest else (k, w) :: dictInsert rest key v

/-- Dict deletion `del d[key]` (keys are unique). -/
def dictErase {α : Type} : List (String × α) → String → List (String × α)
  | [], _ => []
  | (k, w) :: rest, key => if k = key then rest else (k, w) :: dictErase rest key

/-- State of a `WikiCache`: the entry dict maps lower-cased keys to
`(value, timestamp)` pairs; `hits` / `misses` are the observability counters. -/
structure WikiCache (α : Type) where
  cache : List (String × α × Int)
  ttl_seconds : Int
  max_size : Nat
  hits : Nat
  misses : Nat
deriving Repr

/-- A fresh cache (`WikiCache.__init__`). -/
def WikiCache.empty {α : Type} (ttl_seconds : Int) (max_size : Nat) : WikiCache α :=
  ⟨[], ttl_seconds, max_size, 0, 0⟩

/-- Embedding of `WikiCache.get`: case-insensitive key, lazy expiry (an entry
whose age reaches the TTL is deleted on access), hit/miss counters. -/
def WikiCache.get {α : Type} (c : WikiCache α) (key : String) (now : Int) :
    Option α × WikiCache α :=
  let key_lower := pyLower key
  match dictFind c.cache key_lower with
  | some (value, timestamp) =>
    if now - timestamp < c.ttl_seconds then
      (some value, { c with hits := c.hits + 1 })
    else
      (none, { c with
        cache := dictErase c.cache key_lower
        misses := c.misses + 1 })
  | none => (none, { c with misses := c.misses + 1 })

/-- Embedding of `WikiCache.set`: when at capacity and the key is new, the
oldest-inserted entry is evicted first (FIFO).  The `none` result models the
`StopIteration` that Python `next(iter({}))` raises, which is reachable only
when `max_size = 0` and the dict is empty. -/
def WikiCache.set {α : Type} (c : WikiCache α) (key : String) (value : α)
    (now : Int) : Option (WikiCache α) :=
  let key_lower := pyLower key
  if decide (c.max_size ≤ c.cache.length) && (dictFind c.cache key_lower).isNone then
    match c.cache with
    | [] => none
    | _ :: rest => some { c with cache := dictInsert rest key_lower (value, now) }
  else
    some { c with cache := dictInsert c.cache key_lower (value, now) }

/-- Iterated `WikiCache.set` over a list of `(key, value, timestamp)` triples,
propagating the `StopIteration` case. -/
def WikiCache.setAll {α : Type} (c : WikiCache α) :
    List (String × α × Int) → Option (WikiCache α)
  | [] => some c
  | (k, v, t) :: rest =>
    match c.set k v t with
    | some c2 => c2.setAll rest
    | none => none

/-! ## Retry decorator (`retry_on_network_error`, source lines 104-173)

The wrapped callable is modelled as an oracle `f : Nat → Attempt α` giving the
outcome of each successive invocation.  `requests.exceptions.Timeout` and
other `requests.exceptions.RequestException`s are the two caught classes; any
other exception escapes the `try` uncaught.  The backoff sleeps are pure
delays with no observable effect and are not modelled.  In the source the
decorator is applied to the bound method `_make_api_request(self, params)`,
so the wrapper sees `args = (self, params)` and `str(args[0])` is the default
`repr` of the `WikiClient` object, not a URL.
-/

/-- Outcome of one invocation of the wrapped function. -/
inductive Attempt (α : Type) where
  | timeout (msg : String)
  | reqError (msg : String)
  | raised (msg : String)
  | ok (val : α)
deriving Repr, DecidableEq

/-- Payload of a raised `NetworkError`: its `url` and `original_error` fields
(the latter as its `str`). -/
structure NetworkErrorV where
  url : String
  original : String
deriving Repr, DecidableEq

/-- Result of running the retry wrapper: a value, a raised `NetworkError`, a
propagated non-request exception, or the implicit `None` return (reachable
only when `max_retries = 0`, where the loop body never runs). -/
inductive RetryOutcome (α : Type) where
  | ok (val : α)
  | netErr (e : NetworkErrorV)
  | raised (msg : String)
  | noneReturn
deriving Repr, DecidableEq

/-- The `url=str(args[0]) if args else "unknown"` expression of the source. -/
def urlOfArgs (args : List String) : String :=
  match args with
  | [] => "unknown"
  | a :: _ => a

/-- The retry loop `for attempt in range(max_retries)`, with `i` the current
attempt index and `remaining` the iterations left; returns the outcome and
the number of invocations performed. -/
def retryLoop {α : Type} (f : Nat → Attempt α) (args : List String)
    (maxRetries : Nat) : Nat → Nat → RetryOutcome α × Nat
  | i, 0 => (.noneReturn, i)
  | i, remaining + 1 =>
    match f i with
    | .ok v => (.ok v, i + 1)
    | .raised m => (.raised m, i + 1)
    | .timeout m =>
      if i = maxRetries - 1 then (.netErr ⟨urlOfArgs args, m⟩, i + 1)
      else retryLoop f args maxRetries (i + 1) remaining
    | .reqError m =>
      if i = maxRetries - 1 then (.netErr ⟨urlOfArgs args, m⟩, i + 1)
      else retryLoop f args maxRetries (i + 1) remaining

/-- Embedding of a call through `retry_on_network_error(max_retries, ...)`:
runs the retry loop from attempt 0. -/
def retryRun {α : Type} (maxRetries : Nat) (f : Nat → Attempt α)
    (args : List String) : RetryOutcome α × Nat :=
  retryLoop f args maxRetries 0 maxRetries

/-- Message of a `NetworkError` (`str(e)`, from `NetworkError.__init__`). -/
def networkErrMsg (e : NetworkErrorV) : String :=
  "Failed to connect to " ++ e.url ++ ": " ++ e.original ++
    ". Please check your internet connection and try again."

/-- Message of a `PageNotFoundError` (`str(e)`). -/
def pageNotFoundMsg (page_title : String) : String :=
  "Page " ++ aposS ++ page_title ++ aposS ++
    " not found on the wiki. Try using the search_wiki tool first to find the correct page name."

/-- The `f"Unexpected error: {str(e)}"` message of the generic handlers. -/
def unexpectedMsg (m : String) : String :=
  "Unexpected error: " ++ m

/-! ## WikiClient (source lines 472-752)

The client state carries the constructor arguments that matter to the claims
(`api_url`, the cache) plus `selfRepr`, the value of `str(self)` (the CPython
default object repr, of the shape `<__main__.WikiClient object at 0x...>`),
and `httpCount`, a ghost counter of HTTP attempts performed, used to index
the network oracle and to count outbound requests.  The `RateLimiter` only
delays execution and never alters any result, so it is not modelled.
-/

/-- Result dict of `get_page`: the success shape
`{"success": True, "page_title", "html", "categories"}` or the failure shape
`{"success": False, "error", "page_title"}`. -/
inductive PageResult where
  | ok (page_title : String) (html : String) (categories : List String)
  | failure (error : String) (page_title : String)
deriving Repr, DecidableEq

/-- The JSON reply of the `action=parse` endpoint, as read by `get_page`:
the optional `error.info` field, `parse.text.*` (defaulted to `""`), and the
category names. -/
structure ParseApiData where
  errorInfo : Option String
  text : String
  categories : List String
deriving Repr, DecidableEq

/-- Client state.  `cache` holds `PageResult` values as in the source. -/
structure WikiClientState where
  api_url : String
  selfRepr : String
  cache : WikiCache PageResult
  httpCount : Nat

/-- Embedding of `WikiClient._make_api_request`: one call through the retry
wrapper with the deployed `max_retries = 3`.  The stringified positional args
are `[str(self), str(params)]`; only the head is ever consulted (`args[0]`),
so the params repr is elided from the list. -/
def WikiClient.make_api_request {α : Type} (st : WikiClientState)
    (net : Nat → Attempt α) : RetryOutcome α × WikiClientState :=
  let r := retryRun 3 (fun i => net (st.httpCount + i)) [st.selfRepr]
  (r.1, { st with httpCount := st.httpCount + r.2 })

/-- Embedding of `WikiClient.get_page` (source lines 652-752): cache lookup,
fetch with retries on a miss, page-absent / network / unexpected failure
records, and caching of the successful result only.  The `set`-fails case
models the `StopIteration` from `WikiCache.set` being caught by the generic
`except Exception` handler (`str` of a bare `StopIteration` is the empty
string); the `noneReturn` case models the `TypeError` from `"error" in None`
(both unreachable for the deployed `max_retries = 3` / `max_size = 100`). -/
def WikiClient.get_page (st : WikiClientState) (page_title : String) (now : Int)
    (net : Nat → Attempt ParseApiData) : PageResult × WikiClientState :=
  let g := st.cache.get page_title now
  match g.1 with
  | some cached_result => (cached_result, { st with cache := g.2 })
  | none =>
    let st1 : WikiClientState := { st with cache := g.2 }
    let r := WikiClient.make_api_request st1 net
    let st2 := r.2
    match r.1 with
    | .ok data =>
      match data.errorInfo with
      | some _ => (.failure (pageNotFoundMsg page_title) page_title, st2)
      | none =>
        let result := PageResult.ok page_title data.text data.categories
        match st2.cache.set page_title result now with
        | some c2 => (result, { st2 with cache := c2 })
        | none => (.failure (unexpectedMsg "") page_title, st2)
    | .netErr e => (.failure (networkErrMsg e) page_title, st2)
    | .raised m => (.failure (unexpectedMsg m) page_title, st2)
    | .noneReturn =>
      (.failure (unexpectedMsg ("argument of type " ++ aposS ++ "NoneType" ++ aposS ++
        " is not iterable")) page_title, st2)

/-- The query parameters of a search request (the `params` dict of `search`). -/
structure SearchParams where
  action : String
  list : String
  srsearch : String
  srlimit : Int
  format : String
deriving Repr, DecidableEq

/-- Embedding of the `params` dict built by `WikiClient.search`. -/
def search_params (query : String) (limit : Int) : SearchParams :=
  { action := "query", list := "search", srsearch := query, srlimit := limit,
    format := "json" }

/-- One search hit (`{"title", "snippet", ...}`). -/
structure SearchHit where
  title : String
  snippet : String
deriving Repr, DecidableEq

/-- The JSON reply of a search request, as read by `search`:
`data["query"]["search"]`. -/
structure SearchApiData where
  search : List SearchHit
deriving Repr, DecidableEq

/-- Result dict of `search` / `smart_search`.  Python builds different key
sets per case; the model uses one structure: `results` / `count` are `[]` / 0
on failure (where Python omits the keys, which are then never read thanks to
the short-circuit `result["success"] and result["count"] > 0`), and the three
annotation fields are `none` until `smart_search` adds them. -/
structure SearchRes where
  success : Bool
  query : String
  results : List SearchHit
  count : Nat
  error : Option String
  original_query : Option String
  strategy_used : Option String
  strategy_index : Option Nat
deriving Repr, DecidableEq

/-- Embedding of `WikiClient.search` (source lines 535-604).  The network
oracle maps the request parameters to the outcome of `_make_api_request`;
note that the `limit` argument flows into `srlimit` unmodified.  The
`noneReturn` case models `data.get` on `None` raising `AttributeError`,
caught by the generic handler (unreachable for the deployed
`max_retries = 3`). -/
def WikiClient.search (query : String) (limit : Int)
    (net : SearchParams → RetryOutcome SearchApiData) : SearchRes :=
  let params := search_params query limit
  match net params with
  | .ok data =>
    { success := true, query := query, results := data.search,
      count := data.search.length, error := none, original_query := none,
      strategy_used := none, strategy_index := none }
  | .netErr e =>
    { success := false, query := query, results := [], count := 0,
      error := some (networkErrMsg e), original_query := none,
      strategy_used := none, strategy_index := none }
  | .raised m =>
    { success := false, query := query, results := [], count := 0,
      error := some (unexpectedMsg m), original_query := none,
      strategy_used := none, strategy_index := none }
  | .noneReturn =>
    { success := false, query := query, results := [], count := 0,
      error := some (unexpectedMsg (aposS ++ "NoneType" ++ aposS ++
        " object has no attribute " ++ aposS ++ "get" ++ aposS)),
      original_query := none, strategy_used := none, strategy_index := none }

/-- The `result["success"] and result["count"] > 0` test of `smart_search`. -/
def searchHasResults (r : SearchRes) : Bool :=
  r.success && decide (r.count > 0)

/-- The strategy loop of `smart_search`: try each term in order, return the
first result with hits, annotated with its term and index; when the terms are
exhausted, search the raw query and annotate with it (`strategy_index` ends
at the number of strategies, matching `len(search_terms)`). -/
def smartAux (query : String) (limit : Int)
    (net : SearchParams → RetryOutcome SearchApiData) :
    List String → Nat → SearchRes
  | [], i =>
    let result := WikiClient.search query limit net
    { result with
      original_query := some query
      strategy_used := some query
      strategy_index := some i }
  | term :: ts, i =>
    let result := WikiClient.search term limit net
    if searchHasResults result then
      { result with
        original_query := some query
        strategy_used := some term
        strategy_index := some i }
    else smartAux query limit net ts (i + 1)

/-- Embedding of `WikiClient.smart_search` (source lines 606-650). -/
def WikiClient.smart_search (query : String) (limit : Int)
    (net : SearchParams → RetryOutcome SearchApiData) : SearchRes :=
  smartAux query limit net (preprocess_query query) 0

/-- First index satisfying a predicate (used to state which strategy the
`smart_search` loop commits to). -/
def firstIdx {α : Type} (p : α → Bool) : List α → Option Nat
  | [] => none
  | a :: as_ => if p a then some 0 else (firstIdx p as_).map (fun n => n + 1)

/-! ## Extracted records

Python returns `dict[str, Any]` records.  They are modelled as insertion-
ordered association lists over a value type `Val` covering every value shape
the extractors store. -/

/-- Value stored in an extracted record. -/
inductive Val where
  | s (v : String)
  | i (v : Int)
  | b (v : Bool)
  | nullv
  | strs (v : List String)
  | vlist (v : List Val)
  | vrec (v : List (String × Val))
  | imap (v : List (Int × Val))

/-- An extracted record: an insertion-ordered string-keyed dict. -/
abbrev Rec := List (String × Val)

/-- The `data["parsing_warnings"].append(msg)` idiom.  Every call site in the
source appends to the list installed by the record literal, so the fallback
branch is unreachable. -/
def addWarning (d : Rec) (msg : String) : Rec :=
  match dictFind d "parsing_warnings" with
  | some (.strs ws) => dictInsert d "parsing_warnings" (.strs (ws ++ [msg]))
  | _ => d

/-- The `data[key].append(item)` idiom on a list-valued key. -/
def recAppendToList (d : Rec) (key : String) (v : Val) : Rec :=
  match dictFind d key with
  | some (.vlist l) => dictInsert d key (.vlist (l ++ [v]))
  | _ => d

/-- Lookup in an integer-keyed dict (`data["professions"]`, `data["levels"]`). -/
def idictFind : List (Int × Val) → Int → Option Val
  | [], _ => none
  | (k, v) :: rest, key => if k = key then some v else idictFind rest key

/-- Assignment in an integer-keyed dict. -/
def idictInsert : List (Int × Val) → Int → Val → List (Int × Val)
  | [], key, v => [(key, v)]
  | (k, w) :: rest, key, v =>
    if k = key then (k, v) :: rest else (k, w) :: idictInsert rest key v

/-- The `if lvl not in d: d[lvl] = []` / `d[lvl].extend(new)` idiom on an
integer-keyed dict stored under `key`. -/
def profExtend (d : Rec) (key : String) (lvl : Int) (newEntries : List Val) : Rec :=
  match dictFind d key with
  | some (.imap m) =>
    let cur := match idictFind m lvl with
      | some (.vlist l) => l
      | _ => []
    dictInsert d key (.imap (idictInsert m lvl (.vlist (cur ++ newEntries))))
  | _ => d

/-- The `d[lvl] = v` idiom on an integer-keyed dict stored under `key`. -/
def imapSet (d : Rec) (key : String) (lvl : Int) (v : Val) : Rec :=
  match dictFind d key with
  | some (.imap m) => dictInsert d key (.imap (idictInsert m lvl v))
  | _ => d

/-! ## HTML soup model

`BeautifulSoup` is an external library; its parse of a page is modelled as a
`Soup` of views holding exactly what the extractors read, with each field
documented by the BS4 expression it denotes.  The extractors themselves are
transcribed 1:1 against these accessors. -/

/-- One `th`/`td` cell. -/
structure Cell where
  /-- The tag name, `"th"` or `"td"`. -/
  tag : String
  /-- `cell.get_text(strip=True)`. -/
  textStrip : String
  /-- `cell.get_text()`. -/
  text : String
  /-- `link.get_text(strip=True)` for each of `cell.find_all("a")`, in order. -/
  links : List String
deriving Repr, Inhabited

/-- One `tr` row. -/
structure Row where
  /-- `row.find_all(["th", "td"])`, in document order. -/
  cells : List Cell
  /-- `row.get_text()`. -/
  text : String
  /-- `row.get_text(strip=True)`. -/
  textStrip : String
deriving Repr, Inhabited

/-- One `table` element. -/
structure Table where
  /-- The CSS classes of the element. -/
  classes : List String
  /-- `table.find_all("tr")`. -/
  rows : List Row
  /-- BS4 `Tag.string`: non-`none` only when the table element has exactly one
  child and it is a string (never the case for a real table). -/
  tblString : Option String
deriving Repr, Inhabited

/-- A following sibling of an `h3` element (for the NPC gift-section walk). -/
structure Sib where
  /-- Tag name of the sibling. -/
  name : String
  /-- `sib.get_text(strip=True)`. -/
  textStrip : String
deriving Repr, Inhabited

/-- View of one `h3` element for the gift-section loop of `parse_npc_data`. -/
structure H3Block where
  /-- `h3.get_text(strip=True)`. -/
  textStrip : String
  /-- The following siblings of the `h3`, in document order
  (`find_next_sibling` chain). -/
  sibs : List Sib
  /-- Index in `sibs` of the element equal to `h3.find_next("h3")` (the next
  `h3` in document order), when that element is among the siblings; the walk
  stops there.  When the next `h3` is not a sibling the walk scans all
  siblings, exactly as the `current != next_h3` loop does. -/
  stopIdx : Option Nat
deriving Repr, Inhabited

/-- View of one `h2`/`h3`/`span` element for `parse_heart_events`.  The list
`Soup.hls` holds these in document (preorder) order, so list positions order
elements exactly as `list(soup.descendants).index` does. -/
structure HL where
  /-- Tag name: `"h2"`, `"h3"` or `"span"`. -/
  tag : String
  /-- `elem.parent.name`. -/
  parentTag : String
  /-- CSS classes of the element. -/
  cls : List String
  /-- `elem.get_text(strip=True)`. -/
  textStrip : String
  /-- Position of `elem.parent` in the same list (meaningful for `span`
  headlines, whose parent is the enclosing `h2`/`h3` heading). -/
  parentIdx : Nat
  /-- `elem.parent.find_next("p").get_text(strip=True)`, when such a `p`
  exists. -/
  parentNextP : Option String
deriving Repr, Inhabited

/-- The soup of one page: the views consumed by the extractors. -/
structure Soup where
  /-- `soup.find_all("table")`, in document order. -/
  tables : List Table
  /-- `soup.find_all("h3")`, in document order. -/
  h3blocks : List H3Block
  /-- All `h2`, `h3` and `span` elements, in document order. -/
  hls : List HL
  /-- The document text nodes in order, each with the index into `tables` of
  its enclosing table, if any (for `soup.find(string=...)` followed by
  `find_parent("table")`). -/
  textNodes : List (String × Option Nat)
deriving Repr, Inhabited

/-- The soup of `BeautifulSoup("<html></html>", "lxml")`: a document with no
tables, headings or text nodes. -/
def emptySoup : Soup := ⟨[], [], [], []⟩

/-- `row.find_all(["td"])`. -/
def Row.tds (r : Row) : List Cell :=
  r.cells.filter (fun c => c.tag == "td")

/-- `row.find_all("th")`. -/
def Row.ths (r : Row) : List Cell :=
  r.cells.filter (fun c => c.tag == "th")

/-- `table.find_all("th")` (all header cells of the table, row-major). -/
def Table.ths (t : Table) : List Cell :=
  t.rows.flatMap Row.ths

/-- `soup.find("table", class_="infobox")`. -/
def Soup.findInfobox (s : Soup) : Option Table :=
  s.tables.find? (fun t => t.classes.contains "infobox")

/-- `soup.find_all("table", class_="wikitable")`. -/
def Soup.wikitables (s : Soup) : List Table :=
  s.tables.filter (fun t => t.classes.contains "wikitable")

/-- The shared idiom: the infobox table, or failing that the first table of
the page, or nothing. -/
def Soup.infoboxOrFirst (s : Soup) : Option Table :=
  match s.findInfobox with
  | some t => some t
  | none => s.tables.head?

/-! ## Extractors (`parse_*_data`, source lines 883-2206)

Each extractor starts from the record literal of the source and applies the
source's field updates.  Every BS4 accessor used is total, so the per-field
`try/except` handlers of the source (which merely append to
`parsing_warnings` and continue) are unreachable in the model, with one
exception: the network fetch inside the bundle extractor, whose failure is a
modelled input. -/

/-- One infobox row of `parse_crop_data`. -/
def cropInfoboxRow (d : Rec) (r : Row) : Rec :=
  match r.cells with
  | c0 :: c1 :: _ =>
    let key := pyLower c0.textStrip
    let value := c1.textStrip
    if strContains key "season" then
      dictInsert d "seasons" (.strs ((pySplitOn value ',').map pyStrip))
    else if strContains key "growth time" then
      match firstIntRun value with
      | some n => dictInsert d "growth_time" (.i n)
      | none => d
    else if strContains key "regrowth" then
      match firstIntRun value with
      | some n => dictInsert d "regrowth_time" (.i n)
      | none => d
    else d
  | _ => d

/-- One sell-price row of `parse_crop_data` (cells are `td` only). -/
def cropPriceRow (prices : List (String × Val)) (r : Row) : List (String × Val) :=
  match r.tds with
  | c0 :: c1 :: _ =>
    let quality := pyLower c0.textStrip
    match firstIntRun c1.textStrip with
    | some n => dictInsert prices quality (.i n)
    | none => prices
  | _ => prices

/-- The sell-price table search of `parse_crop_data`:
`soup.find("table", string=re.compile("Sell Price", re.I))`, then the
fallback `soup.find(string=...)` followed by `find_parent("table")`. -/
def findPriceTable (soup : Soup) : Option Table :=
  match soup.tables.find? (fun t =>
    match t.tblString with
    | some s => strContainsCi s "Sell Price"
    | none => false) with
  | some t => some t
  | none =>
    match soup.textNodes.find? (fun tn => strContainsCi tn.1 "Sell Price") with
    | some tn => tn.2.bind (fun i => soup.tables.get? i)
    | none => none

/-- Embedding of `parse_crop_data` (source lines 883-975). -/
def parse_crop_data (soup : Soup) (page_title : String) : Rec :=
  let data : Rec :=
    [("type", .s "crop"), ("name", .s page_title), ("parsing_warnings", .strs [])]
  let data := match soup.infoboxOrFirst with
    | some infobox => infobox.rows.foldl cropInfoboxRow data
    | none => data
  match findPriceTable soup with
  | some price_table =>
    let prices := (price_table.rows.drop 1).foldl cropPriceRow []
    if prices.isEmpty then data else dictInsert data "sell_prices" (.vrec prices)
  | none => data

/-- One infobox row of `parse_npc_data`. -/
def npcInfoboxRow (d : Rec) (r : Row) : Rec :=
  match r.cells with
  | c0 :: c1 :: _ =>
    let key := pyLower c0.textStrip
    let value := c1.textStrip
    if strContains key "birthday" then dictInsert d "birthday" (.s value)
    else if strContains key "marriage" then
      dictInsert d "marriageable" (.b (strContains (pyLower value) "yes"))
    else if strContains key "address" || strContains key "lives in" then
      dictInsert d "address" (.s value)
    else if strContains key "family" then dictInsert d "family" (.s value)
    else d
  | _ => d

/-- The five gift categories of `parse_npc_data`, in source order. -/
def giftTypes : List String := ["loved", "liked", "neutral", "disliked", "hated"]

/-- The note filter applied to each gift paragraph. -/
def isGiftNote (text : String) : Bool :=
  strStartsWith text "*Note" || strStartsWith text "Note:" ||
  decide (text.length > 50) ||
  strContains (pyLower text) "the following are" ||
  strContains (pyLower text) "not considered"

/-- Paragraph collection between one `h3` and the next: walk the siblings up
to the one that is the next `h3` in document order, keeping non-note `p`
texts. -/
def collectGifts (blk : H3Block) : List String :=
  let sibsScanned := match blk.stopIdx with
    | some i => blk.sibs.take i
    | none => blk.sibs
  sibsScanned.foldl (fun gifts sib =>
    if sib.name == "p" then
      let text := sib.textStrip
      if text != "" && !(isGiftNote text) then gifts ++ [text] else gifts
    else gifts) []

/-- The gift-preference loop of `parse_npc_data`: for each gift type, the
first `h3` whose text contains the de-`d`-suffixed type is scanned (the
source `break`s after it whether or not gifts were found). -/
def npcGifts (soup : Soup) (d : Rec) : Rec :=
  giftTypes.foldl (fun d gift_type =>
    let search_text := pyRstripD gift_type
    match soup.h3blocks.find? (fun b =>
        strContains (pyLower b.textStrip) search_text) with
    | some blk =>
      let gifts := collectGifts blk
      if gifts.isEmpty then d
      else dictInsert d (gift_type ++ "_gifts") (.strs gifts)
    | none => d) d

/-- The heart-level word map of `parse_heart_events`. -/
def heartMap : List (String × Int) :=
  [("two", 2), ("four", 4), ("six", 6), ("eight", 8), ("ten", 10), ("fourteen", 14)]

/-- The `find_next(["h3", "span"], class_=["mw-headline"])` predicate. -/
def hlIsH3SpanHeadline (h : HL) : Bool :=
  (h.tag == "h3" || h.tag == "span") && h.cls.contains "mw-headline"

/-- `elem.find_next(...)` from list position `p`: the first later element
satisfying the predicate, as a position. -/
def findHLFrom (hls : List HL) (p : Nat) (pred : HL → Bool) : Option Nat :=
  match firstIdx pred (hls.drop (p + 1)) with
  | some k => some (p + 1 + k)
  | none => none

/-- The per-heading extraction of `parse_heart_events`: heart level from the
`(\w+)\s+Heart` pattern (all mapped levels are non-zero, so the
`if heart_level:` truthiness test passes whenever the lookup succeeds), and
the optional short trigger paragraph. -/
def heartEventOf (cur : HL) : Option Rec :=
  match searchHeartWord cur.textStrip with
  | some w =>
    let heart_word := pyLower w
    match dictFind heartMap heart_word with
    | some heart_level =>
      let event_data : Rec :=
        [("heart_level", .i heart_level), ("title", .s cur.textStrip)]
      match cur.parentNextP with
      | some trigger_text =>
        if decide (trigger_text.length < 200) then
          event_data ++ [("trigger", Val.s trigger_text)]
        else event_data
      | none => event_data
    | none => none
  | none => none

/-- The heading walk of `parse_heart_events`: stop at the next `h2` (document
order), collect events, and continue only through `span` headlines whose
parent is an `h3`.  Positions increase strictly, so fuel `hls.length`
suffices. -/
def heartWalk (hls : List HL) (nextH2Pos : Option Nat) :
    Nat → Nat → List Rec → List Rec
  | 0, _, events => events
  | fuel + 1, pos, events =>
    match hls.get? pos with
    | none => events
    | some cur =>
      if (match nextH2Pos with
          | some n2 => decide (pos ≥ n2)
          | none => false) then events
      else
        let events2 := events ++ (heartEventOf cur).toList
        match findHLFrom hls pos hlIsH3SpanHeadline with
        | none => events2
        | some q =>
          match hls.get? q with
          | none => events2
          | some nxt =>
            if nxt.tag != "span" then events2
            else if nxt.parentTag != "h3" then events2
            else heartWalk hls nextH2Pos fuel q events2

/-- Embedding of `parse_heart_events` (source lines 1089-1187): find the first
`h2`/`span` headline announcing the events section (the loop breaks after
processing it), then walk its sub-headings. -/
def parse_heart_events (soup : Soup) : List Rec :=
  let hls := soup.hls
  let isCand := fun (h : HL) =>
    (h.tag == "h2" || h.tag == "span") && h.cls.contains "mw-headline"
  let sectionHit := fun (h : HL) =>
    let t := pyLower h.textStrip
    strContains t "heart event" || (t == "events" && h.tag == "span")
  match firstIdx (fun h => isCand h && sectionHit h) hls with
  | none => []
  | some pos =>
    match hls.get? pos with
    | none => []
    | some h =>
      let headerPos := if h.tag == "span" then h.parentIdx else pos
      let nextH2Pos := findHLFrom hls headerPos (fun x => x.tag == "h2")
      match findHLFrom hls headerPos hlIsH3SpanHeadline with
      | none => []
      | some q => heartWalk hls nextH2Pos hls.length q []

/-- Embedding of `parse_npc_data` (source lines 978-1086). -/
def parse_npc_data (soup : Soup) (page_title : String) : Rec :=
  let data : Rec :=
    [("type", .s "npc"), ("name", .s page_title), ("parsing_warnings", .strs [])]
  let data := match soup.infoboxOrFirst with
    | some infobox => infobox.rows.foldl npcInfoboxRow data
    | none => data
  let data := npcGifts soup data
  let heart_events := parse_heart_events soup
  if heart_events.isEmpty then data
  else dictInsert data "heart_events" (.vlist (heart_events.map Val.vrec))

/-- Outcome of the `WikiClient(WIKI_API_URL).get_page("Bundles")` call made
inside the bundle extractor for stub pages: either an exception somewhere in
the client creation / fetch / parse (caught at the extractor and recorded as
a warning) or the fetched result with its success flag and parsed soup. -/
inductive BundlesFetch where
  | raised (msg : String)
  | fetched (success : Bool) (bsoup : Soup)

/-- The item filter of the stub-page path: the link names excluded outright. -/
def bundleExcludedLinks : List String :=
  ["Spring", "Summer", "Fall", "Winter", "Crops", "Foraging"]

/-- The `any(req["item"] == item_name for req in data["requirements"])` test. -/
def reqsHaveItem (reqs : List Val) (item_name : String) : Bool :=
  reqs.any (fun v =>
    match v with
    | .vrec r =>
      match dictFind r "item" with
      | some (.s n) => n == item_name
      | _ => false
    | _ => false)

/-- Link collection over one cell of a stub-bundle table row. -/
def bundleStubCell (page_title : String) (reqs : List Val) (cell : Cell) : List Val :=
  cell.links.foldl (fun reqs item_name =>
    if item_name != "" && item_name != page_title &&
        !(bundleExcludedLinks.contains item_name) &&
        !(reqsHaveItem reqs item_name) then
      reqs ++ [Val.vrec [("item", .s item_name), ("quantity", .i 1)]]
    else reqs) reqs

/-- Row scan of the stub-page path: reward rows skipped, all cells scanned. -/
def bundleStubRows (page_title : String) (table : Table) : List Val :=
  table.rows.foldl (fun reqs row =>
    if strContains (pyLower row.textStrip) "reward" then reqs
    else (row.tds).foldl (bundleStubCell page_title) reqs) []

/-- One table of the direct bundle-table scan (`"item"`/`"source"` header). -/
def bundleOrigTable (d : Rec) (table : Table) : Rec :=
  let headers := (table.ths).map (fun c => pyLower c.textStrip)
  if headers.contains "item" || headers.contains "source" then
    (table.rows.drop 1).foldl (fun d row =>
      match row.tds with
      | [] => d
      | item_cell :: restCells =>
        let item_name := item_cell.textStrip
        let quantity : Int := match restCells with
          | [] => 1
          | qcell :: _ =>
            match firstIntRun qcell.textStrip with
            | some n => n
            | none => 1
        if item_name != "" then
          recAppendToList d "requirements"
            (Val.vrec [("item", .s item_name), ("quantity", .i quantity)])
        else d) d
  else d

/-- The direct bundle-table scan over all tables of the page. -/
def bundleOriginal (soup : Soup) (d : Rec) : Rec :=
  soup.tables.foldl bundleOrigTable d

/-- Embedding of `parse_bundle_data` (source lines 1190-1313).  A page with no
table of more than one row and `bundle` in its title is treated as a stub:
the canonical Bundles page is fetched and searched for a text node matching
the title (case-insensitively); its enclosing table, when there is one, is
scraped and the function returns at once.  Every other path falls through to
the direct table scan. -/
def parse_bundle_data (soup : Soup) (page_title : String) (bf : BundlesFetch) : Rec :=
  let data : Rec :=
    [("type", .s "bundle"), ("name", .s page_title),
     ("requirements", .vlist []), ("parsing_warnings", .strs [])]
  let has_content := soup.tables.any (fun t => decide (t.rows.length > 1))
  if !has_content && strContains (pyLower page_title) "bundle" then
    match bf with
    | .raised m =>
      bundleOriginal soup (addWarning data ("Failed to fetch main Bundles page: " ++ m))
    | .fetched success bsoup =>
      if success then
        match bsoup.textNodes.find? (fun tn => strContainsCi tn.1 page_title) with
        | some tn =>
          match tn.2 with
          | some ti =>
            match bsoup.tables.get? ti with
            | some table =>
              dictInsert data "requirements" (.vlist (bundleStubRows page_title table))
            | none => bundleOriginal soup data
          | none => bundleOriginal soup data
        | none => bundleOriginal soup data
      else bundleOriginal soup data
  else bundleOriginal soup data

/-- One infobox row of `parse_fish_data`. -/
def fishInfoboxRow (d : Rec) (r : Row) : Rec :=
  match r.cells with
  | c0 :: c1 :: _ =>
    let key := pyLower c0.textStrip
    let value := c1.textStrip
    if strContains key "location" then dictInsert d "location" (.s value)
    else if strContains key "season" then
      dictInsert d "seasons" (.strs ((pySplitOn value ',').map pyStrip))
    else if strContains key "time" then dictInsert d "time" (.s value)
    else if strContains key "weather" then dictInsert d "weather" (.s value)
    else d
  | _ => d

/-- Embedding of `parse_fish_data` (source lines 1316-1366). -/
def parse_fish_data (soup : Soup) (page_title : String) : Rec :=
  let data : Rec :=
    [("type", .s "fish"), ("name", .s page_title), ("parsing_warnings", .strs [])]
  match soup.infoboxOrFirst with
  | some infobox => infobox.rows.foldl fishInfoboxRow data
  | none => data

/-- One infobox row of `parse_recipe_data` (source lines 1396-1478). -/
def recipeInfoboxRow (d : Rec) (r : Row) : Rec :=
  match r.cells with
  | c0 :: c1 :: _ =>
    let key := pyLower c0.textStrip
    let value := c1.textStrip
    if strContains key "source" && !(strContains key "recipe") then
      let d :=
        if strContains (pyLower value) "cooking" then
          dictInsert d "recipe_type" (.s "cooking")
        else if strContains (pyLower value) "crafting" then
          dictInsert d "recipe_type" (.s "crafting")
        else d
      dictInsert d "source" (.s value)
    else if strContains key "recipe source" then
      dictInsert d "unlock_source" (.s value)
    else if strContains key "ingredient" then
      let ingredients := (findAllIngredients value).map
        (fun p => Val.vrec [("item", .s (pyStrip p.1)), ("quantity", .i p.2)])
      if ingredients.isEmpty then d
      else dictInsert d "ingredients" (.vlist ingredients)
    else if strContains key "buff" && !(strContains key "duration") then
      dictInsert d "buff" (.s value)
    else if strContains key "buff duration" then
      dictInsert d "buff_duration" (.s value)
    else if strContains key "energy" && strContains key "health" then
      match firstDigitRunStr value with
      | some full_num =>
        if decide (full_num.length ≥ 3) then
          if full_num.length = 4 then
            dictInsert
              (dictInsert d "energy" (.i (digitsToNat (full_num.data.take 2))))
              "health" (.i (digitsToNat (full_num.data.drop 2)))
          else
            let mid := full_num.length / 2
            dictInsert
              (dictInsert d "energy" (.i (digitsToNat (full_num.data.take mid))))
              "health" (.i (digitsToNat (full_num.data.drop mid)))
        else d
      | none => d
    else if strContains key "sell" && strContains key "price" then
      let value_clean := strReplaceChar value ',' []
      match intRunBeforeG value_clean with
      | some n => dictInsert d "sell_price" (.i n)
      | none =>
        if strContains (pyLower value) "cannot be sold" then
          dictInsert d "sell_price" .nullv
        else d
    else d
  | _ => d

/-- Products-table scan of `parse_recipe_data` (source lines 1485-1537).  The
`cells[input_idx]` access is not covered by the length guard of the source;
when it is out of range the `IndexError` is caught by the per-row handler and
the row is skipped, which the model reproduces. -/
def productsOfTable (products : List Val) (table : Table) : List Val :=
  let headers := (table.ths).map (fun c => pyLower c.textStrip)
  let has_time := headers.any (fun h => strContains h "time" || strContains h "duration")
  let has_product := headers.any (fun h =>
    strContains h "product" ||
    (h == "name" && headers.any (fun hh => strContains hh "time")))
  if has_product && has_time then
    let product_idx := firstIdx
      (fun h => strContains h "product" || (h == "name" && has_time)) headers
    let time_idx := firstIdx
      (fun h => strContains h "time" || strContains h "duration") headers
    let input_idx := firstIdx
      (fun h => strContains h "input" || strContains h "ingredient") headers
    (table.rows.drop 1).foldl (fun products row =>
      let cells := row.tds
      if decide (cells.length > max (product_idx.getD 0) (time_idx.getD 0)) then
        let withInput := fun (input_text : Option String) =>
          let product_name := product_idx.map (fun i => (cells.getD i default).textStrip)
          let time_text := time_idx.map (fun i => (cells.getD i default).textStrip)
          match product_name, time_text with
          | some pn, some tt =>
            if pn != "" && tt != "" then
              let entry : Rec := [("product", .s pn), ("processing_time", .s tt)]
              let entry := match input_text with
                | some it => if it != "" then entry ++ [("input", Val.s it)] else entry
                | none => entry
              let entry := match intRunBeforeM (pyLower tt) with
                | some n => entry ++ [("processing_minutes", Val.i n)]
                | none => entry
              products ++ [Val.vrec entry]
            else products
          | _, _ => products
        match input_idx with
        | some i =>
          if i < cells.length then withInput (some ((cells.getD i default).textStrip))
          else products
        | none => withInput none
      else products) products
  else products

/-- Embedding of `parse_recipe_data` (source lines 1369-1542). -/
def parse_recipe_data (soup : Soup) (page_title : String) : Rec :=
  let data : Rec :=
    [("type", .s "recipe"), ("name", .s page_title), ("parsing_warnings", .strs [])]
  let data := match soup.infoboxOrFirst with
    | some infobox => infobox.rows.foldl recipeInfoboxRow data
    | none => data
  let products := (soup.wikitables).foldl productsOfTable []
  if products.isEmpty then data else dictInsert data "products" (.vlist products)

/-- The profession keywords of `parse_skill_data`. -/
def profession_keywords : List String :=
  ["Rancher", "Tiller", "Coopmaster", "Artisan", "Shepherd", "Agriculturist",
   "Miner", "Geologist", "Blacksmith", "Prospector", "Excavator", "Gemologist",
   "Forester", "Gatherer", "Lumberjack", "Tapper", "Botanist", "Tracker",
   "Fisher", "Trapper", "Angler", "Pirate", "Mariner", "Luremaster",
   "Fighter", "Scout", "Brute", "Defender", "Acrobat", "Desperado"]

/-- Profession parsing of one cell text: each keyword present starts a
profession whose description runs to the nearest following keyword. -/
def parseProfessions (profKW : List String) (cell_text : String) : List Val :=
  profKW.foldl (fun found prof_name =>
    if strContains cell_text prof_name then
      match strFind cell_text prof_name with
      | none => found
      | some start_idx =>
        let endIdx := profKW.foldl (fun e other_prof =>
          if other_prof != prof_name then
            match strFindFrom cell_text other_prof (start_idx + prof_name.length) with
            | some next_idx => if next_idx < e then next_idx else e
            | none => e
          else e) cell_text.length
        let description := pyStrip (strSlice cell_text (start_idx + prof_name.length) endIdx)
        if found.any (fun v =>
            match v with
            | .vrec r =>
              match dictFind r "name" with
              | some (.s n) => n == prof_name
              | _ => false
            | _ => false) then found
        else found ++ [Val.vrec [("name", .s prof_name), ("description", .s description)]]
    else found) []

/-- The label texts skipped by the content-row scan. -/
def skillLabels : List String :=
  ["Crafting Recipes:", "Crafting / Cooking Recipes:", "Choose a Profession:"]

/-- One content row of the skill table (source lines 1653-1784): the
profession-only-row special case attributes professions to level 10; normal
cells use their column level, with cells beyond the headers falling back to
the last level (skipped when that level is falsy). -/
def skillContentRow (profKW : List String) (current_levels : List Nat)
    (profCols : List Nat) (d : Rec) (row : Row) : Rec :=
  let cells := row.tds
  let non_empty := cells.filter (fun c => c.textStrip != "")
  let row_only_has_professions :=
    decide (non_empty.length ≤ 2) && decide (non_empty.length > 0) &&
    non_empty.all (fun c => profKW.any (fun p => strContains c.textStrip p))
  if row_only_has_professions && !current_levels.isEmpty &&
      decide (current_levels.foldl max 0 = 10) then
    cells.foldl (fun d cell =>
      let cell_text := cell.textStrip
      if cell_text == "" then d
      else if profKW.any (fun p => strContains cell_text p) then
        let professions_found := parseProfessions profKW cell_text
        if professions_found.isEmpty then d
        else profExtend d "professions" 10 professions_found
      else d) d
  else
    (cells.enum).foldl (fun d ic =>
      let col_idx := ic.1
      let cell := ic.2
      let levelOpt : Option Nat :=
        if col_idx < current_levels.length then current_levels.get? col_idx
        else
          match current_levels.getLast? with
          | some l => if l = 0 then none else some l
          | none => none
      match levelOpt with
      | none => d
      | some level_num =>
        let cell_text := cell.textStrip
        if cell_text == "" || skillLabels.contains cell_text then d
        else
          let is_profession_column := profCols.contains col_idx ||
            (decide (col_idx ≥ current_levels.length) && !profCols.isEmpty)
          let has_profession := is_profession_column &&
            profKW.any (fun p => strContains cell_text p)
          if has_profession then
            let professions_found := parseProfessions profKW cell_text
            if professions_found.isEmpty then d
            else profExtend d "professions" (level_num : Int) professions_found
          else if col_idx < current_levels.length then
            let recipes := cell.links.filter (fun n => n != "" && decide (n.length > 1))
            if recipes.isEmpty then d
            else imapSet d "levels" (level_num : Int) (.vrec [("recipes", .strs recipes)])
          else d) d

/-- Header-row test (`th` cells present and `"Level"` in the row text). -/
def isLevelHeaderRow (r : Row) : Bool :=
  !(r.ths.isEmpty) && strContains r.text "Level"

/-- Level numbers of a header row (`Level (\d+)` per `th` cell). -/
def extractLevels (r : Row) : List Nat :=
  r.ths.foldl (fun acc cell =>
    match searchLevelNum cell.textStrip with
    | some n => acc ++ [n]
    | none => acc) []

/-- Column indices of the label row whose cells contain
`"Choose a Profession"`. -/
def profColsOf (label_row : Row) : List Nat :=
  (label_row.tds.enum).foldl (fun acc ic =>
    if strContains ic.2.text "Choose a Profession" then acc ++ [ic.1] else acc) []

/-- The row loop of `parse_skill_data` (source lines 1612-1786), merged into a
single pass: the source's inner content-`while` breaks exactly at the next
header row, which the outer loop then re-examines, so a single scan with a
mode (`none` = looking for a header group, `some` = inside one) is
equivalent.  A header row whose extracted level list is empty ends the
group without starting a new one, as in the source. -/
def skillRowsLoop (profKW : List String) :
    List Row → Option (List Nat × List Nat) → Rec → Rec
  | [], _, d => d
  | r :: rest, mode, d =>
    if isLevelHeaderRow r then
      let current_levels := extractLevels r
      if current_levels.isEmpty then skillRowsLoop profKW rest none d
      else
        match rest with
        | [] => d
        | label_row :: rest2 =>
          skillRowsLoop profKW rest2 (some (current_levels, profColsOf label_row)) d
    else
      match mode with
      | some (levels, profCols) =>
        skillRowsLoop profKW rest mode (skillContentRow profKW levels profCols d r)
      | none => skillRowsLoop profKW rest none d

/-- Embedding of `parse_skill_data` (source lines 1545-1788). -/
def parse_skill_data (soup : Soup) (page_title : String) : Rec :=
  let data : Rec :=
    [("type", .s "skill"), ("name", .s page_title), ("levels", .imap []),
     ("professions", .imap []), ("parsing_warnings", .strs [])]
  let tableOpt := soup.wikitables.find? (fun t =>
    match t.rows.head? with
    | some r0 => strContains r0.text "Level 1" || strContains r0.text "Level 2"
    | none => false)
  match tableOpt with
  | none => data
  | some table =>
    if decide (table.rows.length < 3) then data
    else skillRowsLoop profession_keywords table.rows none data

/-- The quest-table classification by headers (source lines 1838-1848). -/
def questTypeOf (headers : List String) : Option String :=
  if headers.contains "Quest Name" then
    if headers.contains "Prerequisites" then some "special_orders"
    else if headers.contains "Maximum Timeframe" && !(headers.contains "Provided By") then
      some "qi_special_orders"
    else if headers.contains "Provided By" && headers.contains "Requirements" &&
        headers.contains "Rewards" then
      some "story_quests"
    else none
  else none

/-- Header-driven field extraction of one quest row (source lines 1866-1897).
The `break` at `i >= len(cells)` never fires because the caller requires at
least as many cells as headers; it is modelled by skipping, which agrees
since the index only grows. -/
def questRowFold (headers : List String) (cells : List Cell) : Rec :=
  (headers.enum).foldl (fun (quest : Rec) ih =>
    let i := ih.1
    let header := ih.2
    if decide (i ≥ cells.length) then quest
    else
      let cell_text := (cells.getD i default).textStrip
      let key := strReplaceChar (pyLower header) ' ' ['_']
      if header == "Quest Name" then dictInsert quest "name" (.s cell_text)
      else if header == "Quest Text" then dictInsert quest "description" (.s cell_text)
      else if header == "Provided By" then dictInsert quest "provider" (.s cell_text)
      else if header == "Requirements" then dictInsert quest "requirements" (.s cell_text)
      else if header == "Rewards" then dictInsert quest "rewards" (.s cell_text)
      else if header == "Prerequisites" then dictInsert quest "prerequisites" (.s cell_text)
      else if header == "Maximum Timeframe" then dictInsert quest "timeframe" (.s cell_text)
      else dictInsert quest key (.s cell_text)) []

/-- One data row of a recognised quest table (source lines 1860-1903). -/
def questRowStep (headers : List String) (quest_type : String)
    (data : Rec) (row : Row) : Rec :=
  let cells := row.tds
  if decide (cells.length < headers.length) then data
  else
    let quest := questRowFold headers cells
    match dictFind quest "name" with
    | some (.s n) =>
      if n != "" then recAppendToList data quest_type (.vrec quest)
      else data
    | _ => data

/-- One wikitable of `parse_quest_data`: classify by headers and fold its data
rows (source lines 1820-1903). -/
def questTableStep (data : Rec) (table : Table) : Rec :=
  let rows := table.rows
  if decide (rows.length < 2) then data
  else
    let headers : List String := match rows.head? with
      | some r => r.ths.map (fun c => c.textStrip)
      | none => []
    if headers.isEmpty then data
    else
      match questTypeOf headers with
      | none => data
      | some quest_type =>
        if headers.contains "Image" || headers.contains "Description" then data
        else (rows.drop 1).foldl (questRowStep headers quest_type) data

/-- Embedding of `parse_quest_data` (source lines 1791-1917). -/
def parse_quest_data (soup : Soup) (page_title : String) : Rec :=
  let data : Rec :=
    [("type", .s "quests"), ("name", .s page_title), ("story_quests", .vlist []),
     ("special_orders", .vlist []), ("qi_special_orders", .vlist []),
     ("parsing_warnings", .strs [])]
  let tables := soup.wikitables
  if tables.isEmpty then data
  else tables.foldl questTableStep data

/-- The per-row achievement record of the achievements table
(source lines 1960-1994). -/
def achievementItemOf
    (achievement_idx description_idx unlocks_idx : Option Nat)
    (cells : List Cell) : Rec :=
    let achievement : Rec := []
    let achievement := match achievement_idx with
      | some i =>
        if i < cells.length then
          let nm := (cells.getD i default).textStrip
          if nm != "" then dictInsert achievement "name" (.s nm) else achievement
        else achievement
      | none => achievement
    let achievement := match description_idx with
      | some i =>
        if i < cells.length then
          let de := (cells.getD i default).textStrip
          if de != "" then dictInsert achievement "description" (.s de)
          else achievement
        else achievement
      | none => achievement
    let achievement := match unlocks_idx with
      | some i =>
        if i < cells.length then
          let un := (cells.getD i default).textStrip
          if un != "" then dictInsert achievement "unlocks" (.s un)
          else achievement
        else achievement
      | none => achievement
    achievement

/-- One data row of the achievements table (source lines 1953-2003). -/
def achievementRowStep (headers : List String)
    (achievement_idx description_idx unlocks_idx : Option Nat)
    (data : Rec) (row : Row) : Rec :=
  let cells := row.tds
  if decide (cells.length < headers.length) then data
  else
    let achievement :=
      achievementItemOf achievement_idx description_idx unlocks_idx cells
    match dictFind achievement "name" with
    | some _ => recAppendToList data "achievements" (.vrec achievement)
    | none => data

/-- Embedding of `parse_achievement_data` (source lines 1920-2017): only the
first wikitable is read, with header-index-driven columns. -/
def parse_achievement_data (soup : Soup) (page_title : String) : Rec :=
  let data : Rec :=
    [("type", .s "achievements"), ("name", .s page_title),
     ("achievements", .vlist []), ("parsing_warnings", .strs [])]
  match soup.wikitables.head? with
  | none => data
  | some achievements_table =>
    let rows := achievements_table.rows
    if decide (rows.length < 2) then data
    else
      let headers := match rows.head? with
        | some r => r.ths.map (fun c => c.textStrip)
        | none => []
      if headers.isEmpty || !(headers.contains "Achievement") then data
      else
        let achievement_idx := firstIdx (fun h => h == "Achievement") headers
        let description_idx := firstIdx (fun h => h == "Description") headers
        let unlocks_idx := firstIdx (fun h => h == "Unlocks") headers
        (rows.drop 1).foldl
          (achievementRowStep headers achievement_idx description_idx unlocks_idx)
          data

/-- The per-row item record of a collection table (source lines 2062-2106). -/
def collectionItemOf
    (name_idx description_idx sell_price_idx location_idx : Option Nat)
    (cells : List Cell) : Rec :=
    let item : Rec := []
    let item := match name_idx with
      | some i =>
        if i < cells.length then
          let nm := (cells.getD i default).textStrip
          if nm != "" then dictInsert item "name" (.s nm) else item
        else item
      | none => item
    let item := match description_idx with
      | some i =>
        if i < cells.length then
          let de := (cells.getD i default).textStrip
          if de != "" then dictInsert item "description" (.s de) else item
        else item
      | none => item
    let item := match sell_price_idx with
      | some i =>
        if i < cells.length then
          match firstIntRun
              (strReplaceChar (cells.getD i default).textStrip ',' []) with
          | some n => dictInsert item "sell_price" (.i n)
          | none => item
        else item
      | none => item
    let item := match location_idx with
      | some i =>
        if i < cells.length then
          let lo := (cells.getD i default).textStrip
          if lo != "" then dictInsert item "location" (.s lo) else item
        else item
      | none => item
    item

/-- One data row of a collection table (source lines 2054-2116). -/
def collectionRowStep (headers : List String)
    (name_idx description_idx sell_price_idx location_idx : Option Nat)
    (data : Rec) (row : Row) : Rec :=
  let cells := row.tds
  if decide (cells.length < headers.length) then data
  else
    let item :=
      collectionItemOf name_idx description_idx sell_price_idx location_idx cells
    match dictFind item "name" with
    | some _ => recAppendToList data "items" (.vrec item)
    | none => data

/-- One wikitable of `parse_collection_list` (source lines 2040-2116). -/
def collectionTableStep (data : Rec) (table : Table) : Rec :=
  let rows := table.rows
  if decide (rows.length < 2) then data
  else
    let headers := match rows.head? with
      | some r => r.ths.map (fun c => c.textStrip)
      | none => []
    if headers.isEmpty || !(headers.contains "Name") then data
    else
      let name_idx := firstIdx (fun h => h == "Name") headers
      let description_idx := firstIdx (fun h => h == "Description") headers
      let sell_price_idx := firstIdx (fun h => h == "Sell Price") headers
      let location_idx := firstIdx (fun h => h == "Location") headers
      (rows.drop 1).foldl
        (collectionRowStep headers name_idx description_idx sell_price_idx
          location_idx)
        data

/-- Embedding of `parse_collection_list` (source lines 2020-2132). -/
def parse_collection_list (soup : Soup) (page_title : String)
    (collection_type : String) : Rec :=
  let data : Rec :=
    [("type", .s collection_type), ("name", .s page_title),
     ("items", .vlist []), ("parsing_warnings", .strs [])]
  let tables := soup.wikitables
  if tables.isEmpty then data
  else tables.foldl collectionTableStep data

/-- The key sanitizer of `parse_generic_item`:
`re.sub(r"[^\w\s]", "", key).lower().replace(" ", "_")`. -/
def sanitizeKey (key : String) : String :=
  strReplaceChar
    (pyLower (String.mk (key.data.filter (fun c => isWordChar c || isPyWs c))))
    ' ' ['_']

/-- The price keys special-cased by `parse_generic_item`. -/
def genericPriceKeys : List String := ["sell_price", "purchase_price", "buy_price"]

/-- The monster-stat keys special-cased by `parse_generic_item`. -/
def genericStatKeys : List String := ["base_hp", "base_damage", "base_def", "speed", "xp"]

/-- One infobox row of `parse_generic_item` (source lines 2158-2201). -/
def genericRow (d : Rec) (r : Row) : Rec :=
  match r.cells with
  | c0 :: c1 :: _ =>
    let key := c0.textStrip
    let value := c1.textStrip
    let clean_key := sanitizeKey key
    if clean_key == "" then d
    else if genericPriceKeys.contains clean_key then
      let value_clean := strReplaceChar value ',' []
      match intRunBeforeG value_clean with
      | some n => dictInsert d clean_key (.i n)
      | none => dictInsert d clean_key (.s value)
    else if genericStatKeys.contains clean_key then
      if pyIsDigit value then dictInsert d clean_key (.i (digitsToNat value.data))
      else
        match firstIntRun value with
        | some n => dictInsert d clean_key (.i n)
        | none => dictInsert d clean_key (.s value)
    else dictInsert d clean_key (.s value)
  | _ => d

/-- Embedding of `parse_generic_item` (source lines 2135-2206). -/
def parse_generic_item (soup : Soup) (page_title : String) (item_type : String) : Rec :=
  let data : Rec :=
    [("type", .s item_type), ("name", .s page_title), ("parsing_warnings", .strs [])]
  match soup.infoboxOrFirst with
  | some infobox => infobox.rows.foldl genericRow data
  | none => data

/-- Embedding of `parse_page_data` (source lines 760-811): classify, then
dispatch to the matching extractor; `artifact`/`mineral` pages titled
`Artifacts`/`Minerals` go to the collection-list extractor, every
unrecognised type to the generic one. -/
def parse_page_data (soup : Soup) (page_title : String) (categories : List String)
    (bf : BundlesFetch) : Rec :=
  let page_type := detect_page_type categories page_title
  if page_type == "crop" then parse_crop_data soup page_title
  else if page_type == "npc" then parse_npc_data soup page_title
  else if page_type == "bundle" then parse_bundle_data soup page_title bf
  else if page_type == "fish" then parse_fish_data soup page_title
  else if page_type == "recipe" then parse_recipe_data soup page_title
  else if page_type == "skill" then parse_skill_data soup page_title
  else if page_type == "quests" then parse_quest_data soup page_title
  else if page_type == "achievements" then parse_achievement_data soup page_title
  else if page_type == "artifact" || page_type == "mineral" then
    if ["artifacts", "minerals"].contains (pyLower page_title) then
      parse_collection_list soup page_title page_type
    else parse_generic_item soup page_title page_type
  else parse_generic_item soup page_title page_type

/-! ## Shared lemmas about the dict model -/

/-- Looking up the key just inserted. -/
theorem dictFind_dictInsert_self {α : Type} :
    ∀ (l : List (String × α)) (k : String) (v : α),
      dictFind (dictInsert l k v) k = some v
  | [], k, v => by simp [dictInsert, dictFind]
  | (k0, w) :: rest, k, v => by
    by_cases h : k0 = k
    · simp [dictInsert, dictFind, h]
    · simp only [dictInsert, dictFind, if_neg h]
      exact dictFind_dictInsert_self rest k v

/-- Insertion preserves the presence of every key. -/
theorem dictFind_dictInsert_isSome {α : Type} :
    ∀ (l : List (String × α)) (k k' : String) (v : α),
      (dictFind l k).isSome → (dictFind (dictInsert l k' v) k).isSome
  | [], k, k', v => by simp [dictFind]
  | (k0, w) :: rest, k, k', v => by
    intro h
    by_cases h0 : k0 = k'
    · subst h0
      by_cases hk : k0 = k <;> simp_all [dictInsert, dictFind]
    · simp only [dictInsert, if_neg h0]
      by_cases hk : k0 = k
      · simp [dictFind, hk]
      · simp only [dictFind, if_neg hk] at h ⊢
        exact dictFind_dictInsert_isSome rest k k' v h

/-- Inserting a key that is absent appends the binding at the end. -/
theorem dictInsert_fresh {α : Type} :
    ∀ (l : List (String × α)) (k : String) (v : α),
      dictFind l k = none → dictInsert l k v = l ++ [(k, v)]
  | [], k, v, _ => rfl
  | (k0, w) :: rest, k, v, h => by
    by_cases h0 : k0 = k
    · simp [dictFind, h0] at h
    · simp only [dictFind, if_neg h0] at h
      simp [dictInsert, if_neg h0, dictInsert_fresh rest k v h]

/-- Lookup through an append whose left part misses the key. -/
theorem dictFind_append {α : Type} :
    ∀ (l1 l2 : List (String × α)) (k : String),
      dictFind l1 k = none → dictFind (l1 ++ l2) k = dictFind l2 k
  | [], l2, k, _ => rfl
  | (k0, w) :: rest, l2, k, h => by
    by_cases h0 : k0 = k
    · simp [dictFind, h0] at h
    · simp only [dictFind, if_neg h0] at h
      simp only [List.cons_append, dictFind, if_neg h0]
      exact dictFind_append rest l2 k h

/-- A key outside the key list is not found. -/
theorem dictFind_not_mem {α : Type} :
    ∀ (l : List (String × α)) (k : String),
      k ∉ l.map Prod.fst → dictFind l k = none
  | [], k, _ => rfl
  | (k0, w) :: rest, k, h => by
    simp only [List.map_cons, List.mem_cons, not_or] at h
    have h0 : k0 ≠ k := fun he => h.1 he.symm
    simp only [dictFind, if_neg h0]
    exact dictFind_not_mem rest k h.2

/-- Among entries with pairwise-distinct keys, a member is found with its
value. -/
theorem dictFind_of_mem_nodup {α : Type} :
    ∀ (l : List (String × α)) (k : String) (v : α),
      (l.map Prod.fst).Nodup → (k, v) ∈ l → dictFind l k = some v
  | [], k, v, _, hm => by simp at hm
  | (k0, w) :: rest, k, v, hnd, hm => by
    simp only [List.map_cons, List.nodup_cons] at hnd
    rcases List.mem_cons.mp hm with heq | hm2
    · injection heq with h1 h2
      subst h1
      subst h2
      simp [dictFind]
    · have hk : k0 ≠ k := by
        intro he
        apply hnd.1
        rw [he]
        exact List.mem_map.mpr ⟨(k, v), hm2, rfl⟩
      simp only [dictFind, if_neg hk]
      exact dictFind_of_mem_nodup rest k v hnd.2 hm2

/-! ## Claim C8: classifier priority -/

/-- C8.  Exact-title rules take priority over category rules and a
title-substring fallback applies when categories match nothing: a page titled
`Fishing` is tagged `skill` whatever its categories (in particular with
categories `["Fish"]`); a page titled `Spring Crops Bundle` with no
categories is tagged `bundle` by the title fallback; a page matching no rule
receives the generic `item` tag. -/
theorem claim8_classifier_priority :
    detect_page_type ["Fish"] "Fishing" = "skill" ∧
    (∀ categories : List String, detect_page_type categories "Fishing" = "skill") ∧
    detect_page_type [] "Spring Crops Bundle" = "bundle" ∧
    detect_page_type [] "Zzz" = "item" :=
  ⟨by decide, fun _ => rfl, by decide, by decide⟩

/-! ## Claim C4: no clamping of the search limit -/

/-- C4 counterexample.  The limit used for the outbound request (`srlimit`)
is not clamped into `[1, 50]`: at `limit = 100` the request carries
`srlimit = 100`. -/
theorem claim4_counterexample :
    (search_params "apple" 100).srlimit = 100 ∧
    ¬ ((1 : Int) ≤ (search_params "apple" 100).srlimit ∧
       (search_params "apple" 100).srlimit ≤ 50) :=
  ⟨rfl, by decide⟩

/-- C4 amended.  For every integer limit passed to `search`, the `srlimit`
value of the outbound request equals the limit unchanged — no clamping is
performed anywhere in the code (the `[1, 50]` range appears only in the
declarative MCP tool input schema). -/
theorem claim4_limit_passthrough_amended (query : String) (limit : Int) :
    (search_params query limit).srlimit = limit ∧
    (∀ net : SearchParams → RetryOutcome SearchApiData,
      WikiClient.search query limit net =
        match net (search_params query limit) with
        | .ok data =>
          { success := true, query := query, results := data.search,
            count := data.search.length, error := none, original_query := none,
            strategy_used := none, strategy_index := none }
        | .netErr e =>
          { success := false, query := query, results := [], count := 0,
            error := some (networkErrMsg e), original_query := none,
            strategy_used := none, strategy_index := none }
        | .raised m =>
          { success := false, query := query, results := [], count := 0,
            error := some (unexpectedMsg m), original_query := none,
            strategy_used := none, strategy_index := none }
        | .noneReturn =>
          { success := false, query := query, results := [], count := 0,
            error := some (unexpectedMsg (aposS ++ "NoneType" ++ aposS ++
              " object has no attribute " ++ aposS ++ "get" ++ aposS)),
            original_query := none, strategy_used := none, strategy_index := none }) :=
  ⟨rfl, fun _ => rfl⟩

/-! ## Claim C2: retry attempt counting -/

/-- C2 counterexample.  With `max_retries = 3`, a wrapped call that times out
on its first three invocations and would succeed on a fourth does not succeed:
the third invocation is the last attempt and a `NetworkError` is raised after
exactly 3 attempts — the fourth outcome is never requested. -/
theorem claim2_counterexample :
    retryRun 3 (fun i => if i < 3 then Attempt.timeout "timed out" else Attempt.ok 42)
        ["<WikiClient object>"] =
      (RetryOutcome.netErr ⟨"<WikiClient object>", "timed out"⟩, 3) ∧
    (retryRun 3 (fun i => if i < 3 then Attempt.timeout "timed out" else Attempt.ok 42)
        ["<WikiClient object>"]).1 ≠ RetryOutcome.ok 42 :=
  ⟨by decide, by decide⟩

/-- C2 amended.  `max_retries = 3` bounds the total number of invocations,
the first call included: two timeouts followed by a success succeed on the
third and final attempt (no fourth call is made), and three timeouts raise a
`NetworkError` after exactly 3 attempts, carrying the last error. -/
theorem claim2_retry_attempts_amended {α : Type} (net : Nat → Attempt α)
    (args : List String) (a b c : String) (v : α) :
    (net 0 = .timeout a → net 1 = .timeout b → net 2 = .ok v →
      retryRun 3 net args = (.ok v, 3)) ∧
    (net 0 = .timeout a → net 1 = .timeout b → net 2 = .timeout c →
      retryRun 3 net args = (.netErr ⟨urlOfArgs args, c⟩, 3)) := by
  constructor <;> intro h0 h1 h2 <;>
    simp [retryRun, retryLoop, h0, h1, h2]

/-- Witness for C2 amended at a concrete oracle. -/
theorem claim2_retry_attempts_witness :
    retryRun 3 (fun i => if i < 2 then Attempt.timeout "t" else Attempt.ok 7)
        ["<WikiClient object>"] = (RetryOutcome.ok 7, 3) :=
  (claim2_retry_attempts_amended
      (fun i => if i < 2 then Attempt.timeout "t" else Attempt.ok 7)
      ["<WikiClient object>"] "t" "t" "unused" 7).1 rfl rfl rfl

/-! ## Claim C5: the NetworkError does not carry the target URL -/

/-- C5.  When all retries are exhausted, the raised `NetworkError` carries
the last underlying error as its wrapped cause, but its `url` field is
`str(args[0])` — and `args[0]` of the bound method `_make_api_request` is the
`WikiClient` object itself, so the field holds the object repr, never the
target URL (`self.api_url`). -/
theorem claim5_network_error_url_bug (st : WikiClientState)
    (net : Nat → Attempt ParseApiData) (m0 m1 m2 : String)
    (h0 : net st.httpCount = .timeout m0)
    (h1 : net (st.httpCount + 1) = .timeout m1)
    (h2 : net (st.httpCount + 2) = .timeout m2)
    (hne : st.selfRepr ≠ st.api_url) :
    ∃ e : NetworkErrorV,
      (WikiClient.make_api_request st net).1 = RetryOutcome.netErr e ∧
      e.original = m2 ∧
      e.url = st.selfRepr ∧
      e.url ≠ st.api_url := by
  refine ⟨⟨st.selfRepr, m2⟩, ?_, rfl, rfl, hne⟩
  simp [WikiClient.make_api_request, retryRun, retryLoop, h0, h1, h2, urlOfArgs]

/-- Witness for C5 at a concrete client and all-timeout oracle. -/
theorem claim5_network_error_url_bug_witness :
    ∃ e : NetworkErrorV,
      (WikiClient.make_api_request
        ⟨"https://stardewvalleywiki.com/mediawiki/api.php",
         "<__main__.WikiClient object at 0x7f2b1c2d3e50>",
         WikiCache.empty 3600 100, 0⟩
        (fun _ => (Attempt.timeout "timed out" : Attempt ParseApiData))).1 =
        RetryOutcome.netErr e ∧
      e.original = "timed out" ∧
      e.url = "<__main__.WikiClient object at 0x7f2b1c2d3e50>" ∧
      e.url ≠ "https://stardewvalleywiki.com/mediawiki/api.php" :=
  claim5_network_error_url_bug
    ⟨"https://stardewvalleywiki.com/mediawiki/api.php",
     "<__main__.WikiClient object at 0x7f2b1c2d3e50>",
     WikiCache.empty 3600 100, 0⟩
    (fun _ => (Attempt.timeout "timed out" : Attempt ParseApiData))
    "timed out" "timed out" "timed out"
    rfl rfl rfl (by decide)

/-! ## Claim C6: preprocessor output shape and last resort -/

/-- The season-rule list of Pattern 3 always returns three strategies. -/
theorem cropStrategies_ne_nil :
    ∀ (ms : List (List Char → Option (List Char))) (ql : List Char)
      (cropIn : Bool) (strat : List String),
      cropStrategies ql cropIn ms = some strat → strat ≠ []
  | [], _, _, _, h => by simp [cropStrategies] at h
  | m :: ms, ql, cropIn, strat, h => by
    unfold cropStrategies at h
    dsimp only [] at h
    split at h
    · split at h
      · split at h
        · cases h
          simp
        · exact cropStrategies_ne_nil ms ql cropIn strat h
      · exact cropStrategies_ne_nil ms ql cropIn strat h
    · exact cropStrategies_ne_nil ms ql cropIn strat h

/-- C6 counterexample.  On the query `"the"` no pattern rule fires and the
stop-word filter leaves no keyword, and the last resort is the two-element
list `[query.title(), query.lower()]`, not the single-element `[query]`. -/
theorem claim6_counterexample :
    preprocess_query "the" = ["The", "the"] ∧ preprocess_query "the" ≠ ["the"] :=
  ⟨by decide, by decide⟩

/-- C6 amended.  `preprocess_query` is a pure function returning an ordered
non-empty list for every input; when no pattern rule matches and stop-word
filtering yields no keyword, it returns the two-element last resort
`[query.title(), query.lower()]` (the title-cased and lower-cased forms of
the raw query), not `[query]`. -/
theorem claim6_preprocess_amended :
    (∀ q : String, preprocess_query q ≠ []) ∧
    (∀ q : String, noRuleMatches q = true → keywordsOf q = [] →
      preprocess_query q = [pyTitle q, pyLower q]) := by
  constructor
  · intro q
    intro hc
    unfold preprocess_query at hc
    dsimp only [] at hc
    repeat' split at hc
    all_goals try simp_all
    all_goals exact cropStrategies_ne_nil _ _ _ _ (by assumption) rfl
  · intro q hrule hkw
    unfold noRuleMatches at hrule
    simp only [Bool.and_eq_true, Bool.not_eq_true', Option.isNone_iff_eq_none,
      Bool.or_eq_false_iff] at hrule
    obtain ⟨⟨⟨⟨⟨⟨hg, hb⟩, hc⟩, hl⟩, hbd⟩, ⟨hf1, hf2⟩⟩, hq⟩ := hrule
    simp only [preprocess_query, hg, hb, hc, hl, hbd, hf1, hf2, hq, hkw]
    simp

/-- Witness for C6 amended at the query `"the"`. -/
theorem claim6_preprocess_amended_witness :
    noRuleMatches "the" = true ∧ keywordsOf "the" = [] ∧
    preprocess_query "the" = [pyTitle "the", pyLower "the"] :=
  ⟨by decide, by decide, claim6_preprocess_amended.2 "the" (by decide) (by decide)⟩

/-! ## Claim C7: smart_search strategy selection -/

/-- When every candidate term misses, the loop falls back to the raw query,
annotated with it and with the index past the last strategy. -/
theorem smartAux_all_miss (query : String) (limit : Int)
    (net : SearchParams → RetryOutcome SearchApiData) :
    ∀ (ts : List String) (i : Nat),
      (∀ t ∈ ts, searchHasResults (WikiClient.search t limit net) = false) →
      smartAux query limit net ts i =
        { WikiClient.search query limit net with
          original_query := some query
          strategy_used := some query
          strategy_index := some (i + ts.length) }
  | [], i, _ => by simp [smartAux]
  | t :: ts, i, h => by
    have ht := h t (List.mem_cons_self t ts)
    simp only [smartAux]
    rw [if_neg (by simp [ht])]
    rw [smartAux_all_miss query limit net ts (i + 1)
      (fun u hu => h u (List.mem_cons_of_mem t hu))]
    have harr : i + 1 + ts.length = i + (t :: ts).length := by
      simp only [List.length_cons]
      omega
    rw [harr]

/-- The loop commits to the first candidate whose search has results. -/
theorem smartAux_first_hit (query : String) (limit : Int)
    (net : SearchParams → RetryOutcome SearchApiData) :
    ∀ (ts : List String) (i j : Nat) (t : String),
      firstIdx (fun u => searchHasResults (WikiClient.search u limit net)) ts = some j →
      ts.get? j = some t →
      smartAux query limit net ts i =
        { WikiClient.search t limit net with
          original_query := some query
          strategy_used := some t
          strategy_index := some (i + j) }
  | [], i, j, t, hf, _ => by simp [firstIdx] at hf
  | u :: ts, i, j, t, hf, hg => by
    by_cases hu : searchHasResults (WikiClient.search u limit net)
    · simp only [firstIdx, if_pos hu] at hf
      cases hf
      simp only [List.get?] at hg
      cases hg
      simp [smartAux, hu]
    · simp only [firstIdx, if_neg hu] at hf
      cases hfi : firstIdx (fun u => searchHasResults (WikiClient.search u limit net)) ts with
      | none => rw [hfi] at hf; simp at hf
      | some j2 =>
        rw [hfi] at hf
        simp at hf
        subst hf
        simp only [List.get?] at hg
        simp only [smartAux]
        rw [if_neg (by simp [hu])]
        rw [smartAux_first_hit query limit net ts (i + 1) j2 t hfi hg]
        have harr : i + 1 + j2 = i + (j2 + 1) := by omega
        rw [harr]

/-- C7.  `smart_search` searches each candidate term of the preprocessor in
order and returns the first result with `count > 0`, annotated with the term
used and its index; when every candidate yields nothing, it searches the raw
original query and returns that result (even if empty), annotated with the
raw query and the index `len(search_terms)`. -/
theorem claim7_smart_search_first_hit (query : String) (limit : Int)
    (net : SearchParams → RetryOutcome SearchApiData) :
    (∀ (j : Nat) (t : String),
      firstIdx (fun u => searchHasResults (WikiClient.search u limit net))
        (preprocess_query query) = some j →
      (preprocess_query query).get? j = some t →
      WikiClient.smart_search query limit net =
        { WikiClient.search t limit net with
          original_query := some query
          strategy_used := some t
          strategy_index := some j }) ∧
    ((∀ t ∈ preprocess_query query,
        searchHasResults (WikiClient.search t limit net) = false) →
      WikiClient.smart_search query limit net =
        { WikiClient.search query limit net with
          original_query := some query
          strategy_used := some query
          strategy_index := some (preprocess_query query).length }) := by
  constructor
  · intro j t hf hg
    have h := smartAux_first_hit query limit net (preprocess_query query) 0 j t hf hg
    simpa [WikiClient.smart_search] using h
  · intro h
    have h2 := smartAux_all_miss query limit net (preprocess_query query) 0 h
    simpa [WikiClient.smart_search] using h2

/-- Witness for C7 at a concrete oracle where the first candidate hits. -/
theorem claim7_smart_search_witness :
    WikiClient.smart_search "parsnip" 10
        (fun p => if p.srsearch == "Parsnip" then
          RetryOutcome.ok ⟨[⟨"Parsnip", "a root vegetable"⟩]⟩
        else RetryOutcome.ok ⟨[]⟩) =
      { WikiClient.search "Parsnip" 10
          (fun p => if p.srsearch == "Parsnip" then
            RetryOutcome.ok ⟨[⟨"Parsnip", "a root vegetable"⟩]⟩
          else RetryOutcome.ok ⟨[]⟩) with
        original_query := some "parsnip"
        strategy_used := some "Parsnip"
        strategy_index := some 0 } :=
  (claim7_smart_search_first_hit "parsnip" 10
      (fun p => if p.srsearch == "Parsnip" then
        RetryOutcome.ok ⟨[⟨"Parsnip", "a root vegetable"⟩]⟩
      else RetryOutcome.ok ⟨[]⟩)).1 0 "Parsnip" (by decide) (by decide)

/-! ## Claim C9: FIFO eviction at capacity -/

/-- `setAll` distributes over append. -/
theorem setAll_append {α : Type} :
    ∀ (l1 l2 : List (String × α × Int)) (c : WikiCache α),
      c.setAll (l1 ++ l2) =
        match c.setAll l1 with
        | some c2 => c2.setAll l2
        | none => none
  | [], l2, c => by simp [WikiCache.setAll]
  | ⟨k, v, t⟩ :: l1, l2, c => by
    simp only [List.cons_append, WikiCache.setAll]
    cases c.set k v t with
    | some c2 => exact setAll_append l1 l2 c2
    | none => rfl

/-- Below capacity, a sequence of inserts with fresh, pairwise-distinct keys
appends the corresponding entries in order and evicts nothing. -/
theorem setAll_fits {α : Type} :
    ∀ (l : List (String × α × Int)) (c : WikiCache α),
      c.cache.length + l.length ≤ c.max_size →
      (∀ e ∈ l, dictFind c.cache (pyLower e.1) = none) →
      (l.map (fun e => pyLower e.1)).Nodup →
      c.setAll l = some { c with cache := c.cache ++ l.map (fun e => (pyLower e.1, e.2)) }
  | [], c, _, _, _ => by simp [WikiCache.setAll]
  | ⟨k, v, t⟩ :: rest, c, hlen, hfresh, hnd => by
    simp only [List.length_cons] at hlen
    simp only [List.map_cons, List.nodup_cons] at hnd
    have hfk : dictFind c.cache (pyLower k) = none :=
      hfresh _ (List.mem_cons_self _ _)
    have hset : c.set k v t =
        some { c with cache := c.cache ++ [(pyLower k, (v, t))] } := by
      unfold WikiCache.set
      rw [if_neg ?hcond]
      · rw [dictInsert_fresh _ _ _ hfk]
      case hcond =>
        simp only [Bool.and_eq_true, decide_eq_true_eq, not_and]
        intro hge
        omega
    simp only [WikiCache.setAll, hset]
    rw [setAll_fits rest _ ?hlen2 ?hfresh2 hnd.2]
    · simp [List.append_assoc]
    case hlen2 =>
      simp only [List.length_append, List.length_cons, List.length_nil]
      omega
    case hfresh2 =>
      intro e he
      rw [dictFind_append _ _ _ (hfresh e (List.mem_cons_of_mem _ he))]
      have hne : pyLower k ≠ pyLower e.1 := by
        intro hk
        exact hnd.1 (hk ▸ List.mem_map.mpr ⟨e, he, rfl⟩)
      simp [dictFind, hne]

/-- An insert at capacity with a fresh key evicts the head entry and appends
the new binding. -/
theorem set_evicts {α : Type} (c : WikiCache α) (e1 : String × (α × Int))
    (rest2 : List (String × α × Int)) (k : String) (v : α) (t : Int)
    (hc : c.cache = e1 :: rest2)
    (hcap : c.max_size ≤ c.cache.length)
    (hfresh : dictFind c.cache (pyLower k) = none)
    (hfresh2 : dictFind rest2 (pyLower k) = none) :
    c.set k v t = some { c with cache := rest2 ++ [(pyLower k, (v, t))] } := by
  unfold WikiCache.set
  rw [if_pos (by simp [hfresh, hcap])]
  simp only [hc]
  rw [dictInsert_fresh _ _ _ hfresh2]

/-- C9.  For a fresh cache with `max_size = n` (`n ≥ 1`), inserting `n + 1`
entries with pairwise-distinct (lower-cased) keys evicts exactly the
first-inserted key: afterwards its lookup misses while each of the other `n`
keys is still retrievable (within the TTL) with its stored value. -/
theorem claim9_cache_eviction {α : Type} (n : Nat) (hn : 1 ≤ n) (ttl : Int)
    (e0 : String × α × Int) (rest : List (String × α × Int))
    (hlen : rest.length = n)
    (hnd : ((e0 :: rest).map (fun e => pyLower e.1)).Nodup)
    (tq : Int)
    (hages : ∀ e ∈ e0 :: rest, tq - e.2.2 < ttl) :
    ∃ c : WikiCache α,
      (WikiCache.empty ttl n : WikiCache α).setAll (e0 :: rest) = some c ∧
      (c.get e0.1 tq).1 = none ∧
      ∀ e ∈ rest, (c.get e.1 tq).1 = some e.2.1 := by
  have hne : rest ≠ [] := by
    intro h
    rw [h] at hlen
    simp at hlen
    omega
  set lastE := rest.getLast hne with hlastE
  have hrest : rest = rest.dropLast ++ [lastE] :=
    (List.dropLast_append_getLast hne).symm
  set dl := rest.dropLast with hdl
  set f : String × α × Int → String := fun e => pyLower e.1 with hf
  set g : String × α × Int → String × (α × Int) := fun e => (pyLower e.1, e.2) with hg
  have hmap : rest.map f = dl.map f ++ [f lastE] := by
    conv_lhs => rw [hrest]
    simp
  simp only [List.map_cons, List.nodup_cons] at hnd
  obtain ⟨h0notin, hrestnd⟩ := hnd
  rw [hmap] at hrestnd h0notin
  have hlastnotdl : f lastE ∉ dl.map f := fun hmem =>
    (List.disjoint_of_nodup_append hrestnd) hmem (List.mem_singleton_self _)
  have h0notdl : f e0 ∉ dl.map f := fun hm => h0notin (List.mem_append_left _ hm)
  have h0notlast : f e0 ≠ f lastE := fun he =>
    h0notin (List.mem_append_right _ (he ▸ List.mem_singleton_self _))
  have hdllen : dl.length = n - 1 := by
    rw [hdl, List.length_dropLast, hlen]
  have hkeys : ∀ l : List (String × α × Int), (l.map g).map Prod.fst = l.map f := by
    intro l
    simp [hg, hf, List.map_map, Function.comp]
  have hfits := setAll_fits (e0 :: dl) (WikiCache.empty ttl n)
    (by
      simp only [WikiCache.empty, List.length_nil, List.length_cons, hdllen]
      omega)
    (fun e _ => rfl)
    (by
      simp only [List.map_cons, List.nodup_cons]
      exact ⟨h0notdl, (List.nodup_append.mp hrestnd).1⟩)
  -- the state after the first n inserts
  have hc1cache :
      (WikiCache.empty ttl n : WikiCache α).cache ++ (e0 :: dl).map g =
        g e0 :: dl.map g := by
    simp [WikiCache.empty]
  have hfinddl : dictFind (dl.map g) (f lastE) = none := by
    apply dictFind_not_mem
    rw [hkeys]
    exact hlastnotdl
  have hfindc1 : dictFind (g e0 :: dl.map g) (f lastE) = none := by
    simp only [dictFind, hg]
    rw [if_neg (by exact fun he => h0notlast he)]
    exact hfinddl
  set cfinal : WikiCache α :=
    { WikiCache.empty ttl n with cache := dl.map g ++ [(f lastE, lastE.2)] } with hcf
  refine ⟨cfinal, ?_, ?_, ?_⟩
  · rw [show e0 :: rest = (e0 :: dl) ++ [lastE] from by rw [hrest, List.cons_append]]
    rw [setAll_append]
    simp only [hfits]
    show WikiCache.setAll _ [lastE] = _
    simp only [WikiCache.setAll]
    rw [set_evicts _ (g e0) (dl.map g) lastE.1 lastE.2.1 lastE.2.2
      (by rw [hc1cache]) ?hcap ?hfr ?hfr2]
    case hcap =>
      dsimp only []
      simp only [WikiCache.empty, List.nil_append, List.length_cons, List.length_map, hdllen]
      omega
    case hfr => rw [hc1cache]; exact hfindc1
    case hfr2 => exact hfinddl
  · show (WikiCache.get _ e0.1 tq).1 = none
    simp only [WikiCache.get]
    rw [dictFind_not_mem _ _ ?notmem]
    case notmem =>
      simp only [List.map_append, hkeys]
      intro hmem
      rcases List.mem_append.mp hmem with h | h
      · exact h0notdl h
      · simp at h
        exact h0notlast h
  · intro e he
    obtain ⟨ek, ev, et⟩ := e
    show (WikiCache.get _ ek tq).1 = some ev
    have hentries : dl.map g ++ [(f lastE, lastE.2)] = rest.map g := by
      conv_rhs => rw [hrest]
      simp [hg, hf]
    have hage := hages ⟨ek, ev, et⟩ (List.mem_cons_of_mem _ he)
    simp only [WikiCache.get, hentries]
    rw [dictFind_of_mem_nodup (rest.map g) (pyLower ek) (ev, et) ?nodup ?mem]
    · have hage2 : tq - et < ttl := hage
      simp [WikiCache.empty, hage2]
    case nodup =>
      rw [hkeys, hmap]
      exact hrestnd
    case mem => exact List.mem_map.mpr ⟨⟨ek, ev, et⟩, he, rfl⟩

/-- Witness for C9 at `n = 2` with three concrete entries. -/
theorem claim9_cache_eviction_witness :
    ∃ c : WikiCache Nat,
      (WikiCache.empty 10 2 : WikiCache Nat).setAll
          [("a", 1, (0 : Int)), ("b", 2, 0), ("c", 3, 0)] = some c ∧
      (c.get "a" 0).1 = none ∧
      ∀ e ∈ [("b", (2 : Nat), (0 : Int)), ("c", 3, 0)], (c.get e.1 0).1 = some e.2.1 :=
  claim9_cache_eviction 2 (by decide) 10 ("a", 1, 0) [("b", 2, 0), ("c", 3, 0)]
    (by decide) (by decide) 0 (by decide)
/-! ## Claims C3 and C10: get_page failure handling and caching -/

/-- With `max_size ≥ 1`, `set` always succeeds and the inserted entry is
found under the lower-cased key; the TTL is unchanged. -/
theorem set_finds {α : Type} (c : WikiCache α) (k : String) (v : α) (t : Int)
    (hmax : 1 ≤ c.max_size) :
    ∃ c2, c.set k v t = some c2 ∧ dictFind c2.cache (pyLower k) = some (v, t) ∧
      c2.ttl_seconds = c.ttl_seconds := by
  unfold WikiCache.set
  by_cases hcond :
      (decide (c.max_size ≤ c.cache.length) && (dictFind c.cache (pyLower k)).isNone) = true
  · rw [if_pos hcond]
    cases hc : c.cache with
    | nil =>
      exfalso
      rw [hc] at hcond
      simp [dictFind] at hcond
      omega
    | cons e rest =>
      exact ⟨_, rfl, dictFind_dictInsert_self _ _ _, rfl⟩
  · rw [if_neg hcond]
    exact ⟨_, rfl, dictFind_dictInsert_self _ _ _, rfl⟩

/-- A cache miss followed by a clean fetch returns the success record,
performs exactly one HTTP attempt, caches the result under the lower-cased
title, and keeps the TTL. -/
theorem get_page_miss_ok (st : WikiClientState) (title : String) (now : Int)
    (net : Nat → Attempt ParseApiData) (d : ParseApiData)
    (hmiss : dictFind st.cache.cache (pyLower title) = none)
    (hnet : net st.httpCount = .ok d)
    (herr : d.errorInfo = none)
    (hmax : 1 ≤ st.cache.max_size) :
    (WikiClient.get_page st title now net).1 = PageResult.ok title d.text d.categories ∧
    (WikiClient.get_page st title now net).2.httpCount = st.httpCount + 1 ∧
    dictFind (WikiClient.get_page st title now net).2.cache.cache (pyLower title) =
      some (PageResult.ok title d.text d.categories, now) ∧
    (WikiClient.get_page st title now net).2.cache.ttl_seconds = st.cache.ttl_seconds := by
  have hget : st.cache.get title now =
      (none, { st.cache with misses := st.cache.misses + 1 }) := by
    simp only [WikiCache.get, hmiss]
  obtain ⟨c2, hset, hfindc2, httlc2⟩ :=
    set_finds { st.cache with misses := st.cache.misses + 1 } title
      (PageResult.ok title d.text d.categories) now (by simpa using hmax)
  simp only [WikiClient.get_page, hget, WikiClient.make_api_request, retryRun,
    retryLoop, Nat.add_zero, hnet, herr, hset]
  exact ⟨trivial, trivial, hfindc2, httlc2⟩

/-- A cache hit returns the stored record unchanged and only bumps the hit
counter. -/
theorem get_page_hit (st : WikiClientState) (title : String) (now : Int)
    (net : Nat → Attempt ParseApiData) (r : PageResult) (ts : Int)
    (hfind : dictFind st.cache.cache (pyLower title) = some (r, ts))
    (hage : now - ts < st.cache.ttl_seconds) :
    WikiClient.get_page st title now net =
      (r, { st with cache := { st.cache with hits := st.cache.hits + 1 } }) := by
  simp only [WikiClient.get_page, WikiCache.get, hfind, if_pos hage]

/-- C10.  With caching enabled, two `get_page` calls within the TTL whose
titles agree up to letter case perform exactly one outbound request in total:
the first call fetches and caches, the second is a pure cache hit returning
the identical stored record, whose `page_title` carries the first call's
casing; the second call changes no cache entry. -/
theorem claim10_get_page_caching (st : WikiClientState) (t1 t2 : Int)
    (title1 title2 : String) (d : ParseApiData)
    (net1 net2 : Nat → Attempt ParseApiData)
    (hmiss : dictFind st.cache.cache (pyLower title1) = none)
    (hmax : 1 ≤ st.cache.max_size)
    (hnet : net1 st.httpCount = .ok d)
    (herr : d.errorInfo = none)
    (hcase : pyLower title2 = pyLower title1)
    (httl : t2 - t1 < st.cache.ttl_seconds) :
    (WikiClient.get_page st title1 t1 net1).1 =
      PageResult.ok title1 d.text d.categories ∧
    (WikiClient.get_page (WikiClient.get_page st title1 t1 net1).2 title2 t2 net2).1 =
      (WikiClient.get_page st title1 t1 net1).1 ∧
    (WikiClient.get_page st title1 t1 net1).2.httpCount = st.httpCount + 1 ∧
    (WikiClient.get_page (WikiClient.get_page st title1 t1 net1).2 title2 t2 net2).2.httpCount =
      (WikiClient.get_page st title1 t1 net1).2.httpCount ∧
    (WikiClient.get_page (WikiClient.get_page st title1 t1 net1).2 title2 t2 net2).2.cache.cache =
      (WikiClient.get_page st title1 t1 net1).2.cache.cache := by
  obtain ⟨h1, h2, h3, h4⟩ := get_page_miss_ok st title1 t1 net1 d hmiss hnet herr hmax
  have hhit := get_page_hit (WikiClient.get_page st title1 t1 net1).2 title2 t2 net2
    (PageResult.ok title1 d.text d.categories) t1 (by rw [hcase]; exact h3)
    (by rw [h4]; exact httl)
  refine ⟨h1, ?_, h2, ?_, ?_⟩
  · rw [hhit, h1]
  · rw [hhit]
  · rw [hhit]

/-- Witness for C10 at a concrete client, titles differing in case. -/
theorem claim10_get_page_caching_witness :
    (WikiClient.get_page
        ⟨"u", "<c>", WikiCache.empty 3600 100, 0⟩ "Strawberry" 0
        (fun _ => Attempt.ok ⟨none, "<html>", ["Crops"]⟩)).1 =
      PageResult.ok "Strawberry" "<html>" ["Crops"] ∧
    (WikiClient.get_page
        (WikiClient.get_page ⟨"u", "<c>", WikiCache.empty 3600 100, 0⟩ "Strawberry" 0
          (fun _ => Attempt.ok ⟨none, "<html>", ["Crops"]⟩)).2
        "STRAWBERRY" 10 (fun _ => Attempt.timeout "t")).1 =
      (WikiClient.get_page ⟨"u", "<c>", WikiCache.empty 3600 100, 0⟩ "Strawberry" 0
        (fun _ => Attempt.ok ⟨none, "<html>", ["Crops"]⟩)).1 ∧
    (WikiClient.get_page ⟨"u", "<c>", WikiCache.empty 3600 100, 0⟩ "Strawberry" 0
        (fun _ => Attempt.ok ⟨none, "<html>", ["Crops"]⟩)).2.httpCount = 0 + 1 ∧
    (WikiClient.get_page
        (WikiClient.get_page ⟨"u", "<c>", WikiCache.empty 3600 100, 0⟩ "Strawberry" 0
          (fun _ => Attempt.ok ⟨none, "<html>", ["Crops"]⟩)).2
        "STRAWBERRY" 10 (fun _ => Attempt.timeout "t")).2.httpCount =
      (WikiClient.get_page ⟨"u", "<c>", WikiCache.empty 3600 100, 0⟩ "Strawberry" 0
        (fun _ => Attempt.ok ⟨none, "<html>", ["Crops"]⟩)).2.httpCount ∧
    (WikiClient.get_page
        (WikiClient.get_page ⟨"u", "<c>", WikiCache.empty 3600 100, 0⟩ "Strawberry" 0
          (fun _ => Attempt.ok ⟨none, "<html>", ["Crops"]⟩)).2
        "STRAWBERRY" 10 (fun _ => Attempt.timeout "t")).2.cache.cache =
      (WikiClient.get_page ⟨"u", "<c>", WikiCache.empty 3600 100, 0⟩ "Strawberry" 0
        (fun _ => Attempt.ok ⟨none, "<html>", ["Crops"]⟩)).2.cache.cache :=
  claim10_get_page_caching ⟨"u", "<c>", WikiCache.empty 3600 100, 0⟩ 0 10
    "Strawberry" "STRAWBERRY" ⟨none, "<html>", ["Crops"]⟩
    (fun _ => Attempt.ok ⟨none, "<html>", ["Crops"]⟩) (fun _ => Attempt.timeout "t")
    (by decide) (by decide) rfl rfl (by decide) (by decide)

/-- C3 counterexample.  On a failure path the cache dict is not always left
unchanged: with an already-expired entry stored under the requested key, the
lazy expiry inside `cache.get` deletes that entry even though the fetch then
fails, so the cache differs before and after the failing call. -/
theorem claim3_counterexample :
    ((WikiClient.get_page
        ⟨"u", "<c>", ⟨[("x", (PageResult.ok "x" "h" [], 0))], 10, 100, 0, 0⟩, 0⟩
        "x" 100 (fun _ => Attempt.timeout "t")).2.cache.cache =
      ([] : List (String × PageResult × Int))) ∧
    (⟨"u", "<c>", ⟨[("x", (PageResult.ok "x" "h" [], 0))], 10, 100, 0, 0⟩, 0⟩ :
        WikiClientState).cache.cache ≠ [] ∧
    (WikiClient.get_page
        ⟨"u", "<c>", ⟨[("x", (PageResult.ok "x" "h" [], 0))], 10, 100, 0, 0⟩, 0⟩
        "x" 100 (fun _ => Attempt.timeout "t")).1 =
      PageResult.failure (networkErrMsg ⟨"<c>", "t"⟩) "x" :=
  ⟨rfl, by decide, rfl⟩

/-- C3 amended.  `get_page` never raises: on each of the three failure kinds
it returns a `success=False` record carrying an error string and the page
title, and it stores nothing in the cache — the resulting cache is exactly
the one left by the initial lookup, which differs from the original only by
the lazy purge of an already-expired entry under the requested key (plus the
miss counter). -/
theorem claim3_get_page_failures_amended (st : WikiClientState) (title : String)
    (now : Int) (net : Nat → Attempt ParseApiData)
    (hmiss : (st.cache.get title now).1 = none) :
    (∀ d info, net st.httpCount = .ok d → d.errorInfo = some info →
      WikiClient.get_page st title now net =
        (PageResult.failure (pageNotFoundMsg title) title,
         { st with
           cache := (st.cache.get title now).2
           httpCount := st.httpCount + 1 })) ∧
    (∀ m0 m1 m2, net st.httpCount = .timeout m0 →
      net (st.httpCount + 1) = .timeout m1 → net (st.httpCount + 2) = .timeout m2 →
      WikiClient.get_page st title now net =
        (PageResult.failure (networkErrMsg ⟨st.selfRepr, m2⟩) title,
         { st with
           cache := (st.cache.get title now).2
           httpCount := st.httpCount + 3 })) ∧
    (∀ m, net st.httpCount = .raised m →
      WikiClient.get_page st title now net =
        (PageResult.failure (unexpectedMsg m) title,
         { st with
           cache := (st.cache.get title now).2
           httpCount := st.httpCount + 1 })) := by
  refine ⟨?_, ?_, ?_⟩
  · intro d info hnet herr
    simp only [WikiClient.get_page, hmiss, WikiClient.make_api_request, retryRun,
      retryLoop, Nat.add_zero, hnet, herr]
  · intro m0 m1 m2 h0 h1 h2
    simp only [WikiClient.get_page, hmiss, WikiClient.make_api_request, retryRun,
      retryLoop, Nat.add_zero, h0, h1, h2]
    simp [urlOfArgs]
  · intro m hnet
    simp only [WikiClient.get_page, hmiss, WikiClient.make_api_request, retryRun,
      retryLoop, Nat.add_zero, hnet]

/-- Witness for C3 amended: the network-failure branch at a concrete state. -/
theorem claim3_get_page_failures_witness :
    WikiClient.get_page ⟨"u", "<c>", WikiCache.empty 3600 100, 0⟩ "Oak" 5
        (fun _ => Attempt.timeout "t") =
      (PageResult.failure (networkErrMsg ⟨"<c>", "t"⟩) "Oak",
       { (⟨"u", "<c>", WikiCache.empty 3600 100, 0⟩ : WikiClientState) with
         cache := ((WikiCache.empty 3600 100 : WikiCache PageResult).get "Oak" 5).2
         httpCount := 0 + 3 }) :=
  (claim3_get_page_failures_amended ⟨"u", "<c>", WikiCache.empty 3600 100, 0⟩
    "Oak" 5 (fun _ => Attempt.timeout "t") (by decide)).2.1 "t" "t" "t" rfl rfl rfl
/-! ## Claim C1: extractor totality and mandatory fields -/

/-- The invariant claimed of every extracted record: the `type`, `name` and
`parsing_warnings` fields are present. -/
def hasMandatory (d : Rec) : Prop :=
  (dictFind d "type").isSome = true ∧ (dictFind d "name").isSome = true ∧
  (dictFind d "parsing_warnings").isSome = true

/-- A left fold whose step preserves key presence preserves key presence. -/
theorem keeps_foldl {β : Type} (f : Rec → β → Rec)
    (hf : ∀ (b : β) (d : Rec) (k : String),
      (dictFind d k).isSome = true → (dictFind (f d b) k).isSome = true) :
    ∀ (l : List β) (d : Rec) (k : String),
      (dictFind d k).isSome = true → (dictFind (List.foldl f d l) k).isSome = true
  | [], _, _, h => h
  | b :: rest, d, k, h => keeps_foldl f hf rest (f d b) k (hf b d k h)

/-- `addWarning` preserves the presence of every key. -/
theorem keeps_addWarning : ∀ (d : Rec) (m : String) (k : String),
    (dictFind d k).isSome = true → (dictFind (addWarning d m) k).isSome = true := by
  intro d m k h
  unfold addWarning
  repeat' split
  all_goals first | exact h | exact dictFind_dictInsert_isSome _ _ _ _ h

/-- `recAppendToList` preserves the presence of every key. -/
theorem keeps_recAppendToList : ∀ (d : Rec) (key : String) (v : Val) (k : String),
    (dictFind d k).isSome = true →
    (dictFind (recAppendToList d key v) k).isSome = true := by
  intro d key v k h
  unfold recAppendToList
  repeat' split
  all_goals first | exact h | exact dictFind_dictInsert_isSome _ _ _ _ h

/-- `profExtend` preserves the presence of every key. -/
theorem keeps_profExtend : ∀ (d : Rec) (key : String) (lvl : Int) (vs : List Val)
    (k : String),
    (dictFind d k).isSome = true →
    (dictFind (profExtend d key lvl vs) k).isSome = true := by
  intro d key lvl vs k h
  unfold profExtend
  dsimp only []
  repeat' split
  all_goals first | exact h | exact dictFind_dictInsert_isSome _ _ _ _ h

/-- `imapSet` preserves the presence of every key. -/
theorem keeps_imapSet : ∀ (d : Rec) (key : String) (lvl : Int) (v : Val) (k : String),
    (dictFind d k).isSome = true →
    (dictFind (imapSet d key lvl v) k).isSome = true := by
  intro d key lvl v k h
  unfold imapSet
  repeat' split
  all_goals first | exact h | exact dictFind_dictInsert_isSome _ _ _ _ h

/-- A crop infobox row only ever inserts fields. -/
theorem keeps_cropInfoboxRow : ∀ (r : Row) (d : Rec) (k : String),
    (dictFind d k).isSome = true → (dictFind (cropInfoboxRow d r) k).isSome = true := by
  intro r d k h
  unfold cropInfoboxRow
  dsimp only []
  repeat' split
  all_goals first | exact h | exact dictFind_dictInsert_isSome _ _ _ _ h

/-- An NPC infobox row only ever inserts fields. -/
theorem keeps_npcInfoboxRow : ∀ (r : Row) (d : Rec) (k : String),
    (dictFind d k).isSome = true → (dictFind (npcInfoboxRow d r) k).isSome = true := by
  intro r d k h
  unfold npcInfoboxRow
  dsimp only []
  repeat' split
  all_goals first | exact h | exact dictFind_dictInsert_isSome _ _ _ _ h

/-- A fish infobox row only ever inserts fields. -/
theorem keeps_fishInfoboxRow : ∀ (r : Row) (d : Rec) (k : String),
    (dictFind d k).isSome = true → (dictFind (fishInfoboxRow d r) k).isSome = true := by
  intro r d k h
  unfold fishInfoboxRow
  dsimp only []
  repeat' split
  all_goals first | exact h | exact dictFind_dictInsert_isSome _ _ _ _ h

/-- A recipe infobox row only ever inserts fields. -/
theorem keeps_recipeInfoboxRow : ∀ (r : Row) (d : Rec) (k : String),
    (dictFind d k).isSome = true →
    (dictFind (recipeInfoboxRow d r) k).isSome = true := by
  intro r d k h
  unfold recipeInfoboxRow
  dsimp only []
  repeat' split
  all_goals first
    | exact h
    | exact dictFind_dictInsert_isSome _ _ _ _ h
    | exact dictFind_dictInsert_isSome _ _ _ _ (dictFind_dictInsert_isSome _ _ _ _ h)

/-- A generic-item infobox row only ever inserts fields. -/
theorem keeps_genericRow : ∀ (r : Row) (d : Rec) (k : String),
    (dictFind d k).isSome = true → (dictFind (genericRow d r) k).isSome = true := by
  intro r d k h
  unfold genericRow
  dsimp only []
  repeat' split
  all_goals first | exact h | exact dictFind_dictInsert_isSome _ _ _ _ h

/-- The gift-preference loop only ever inserts fields. -/
theorem keeps_npcGifts : ∀ (soup : Soup) (d : Rec) (k : String),
    (dictFind d k).isSome = true → (dictFind (npcGifts soup d) k).isSome = true := by
  intro soup d k h
  unfold npcGifts
  refine keeps_foldl _ ?_ _ _ _ h
  intro gift_type d2 k2 h2
  dsimp only []
  repeat' split
  all_goals first | exact h2 | exact dictFind_dictInsert_isSome _ _ _ _ h2

/-- One table of the direct bundle scan only ever appends requirements. -/
theorem keeps_bundleOrigTable : ∀ (t : Table) (d : Rec) (k : String),
    (dictFind d k).isSome = true →
    (dictFind (bundleOrigTable d t) k).isSome = true := by
  intro t d k h
  unfold bundleOrigTable
  dsimp only []
  split
  · refine keeps_foldl _ ?_ _ _ _ h
    intro row d2 k2 h2
    dsimp only []
    repeat' split
    all_goals first | exact h2 | exact keeps_recAppendToList _ _ _ _ h2
  · exact h

/-- The direct bundle scan only ever appends requirements. -/
theorem keeps_bundleOriginal : ∀ (soup : Soup) (d : Rec) (k : String),
    (dictFind d k).isSome = true →
    (dictFind (bundleOriginal soup d) k).isSome = true := by
  intro soup d k h
  unfold bundleOriginal
  exact keeps_foldl _ keeps_bundleOrigTable _ _ _ h

/-- One content row of the skill table only ever updates the int-keyed maps. -/
theorem keeps_skillContentRow :
    ∀ (profKW : List String) (levels profCols : List Nat) (r : Row) (d : Rec)
      (k : String),
      (dictFind d k).isSome = true →
      (dictFind (skillContentRow profKW levels profCols d r) k).isSome = true := by
  intro profKW levels profCols r d k h
  unfold skillContentRow
  dsimp only []
  split
  · refine keeps_foldl _ ?_ _ _ _ h
    intro cell d2 k2 h2
    dsimp only []
    repeat' split
    all_goals first | exact h2 | exact keeps_profExtend _ _ _ _ _ h2
  · refine keeps_foldl _ ?_ _ _ _ h
    intro ic d2 k2 h2
    dsimp only []
    repeat' split
    all_goals first
      | exact h2
      | exact keeps_profExtend _ _ _ _ _ h2
      | exact keeps_imapSet _ _ _ _ _ h2

/-- The skill-table row loop only ever updates the int-keyed maps. -/
theorem keeps_skillRowsLoop (profKW : List String) :
    ∀ (rows : List Row) (mode : Option (List Nat × List Nat)) (d : Rec) (k : String),
      (dictFind d k).isSome = true →
      (dictFind (skillRowsLoop profKW rows mode d) k).isSome = true
  | [], _, _, _, h => h
  | r :: rest, mode, d, k, h => by
    unfold skillRowsLoop
    dsimp only []
    repeat' split
    all_goals first
      | exact h
      | exact keeps_skillRowsLoop profKW rest _ _ _ h
      | exact keeps_skillRowsLoop profKW _ _ _ _ h
      | exact keeps_skillRowsLoop profKW rest _ _ _
          (keeps_skillContentRow _ _ _ _ _ _ h)
      | exact keeps_skillRowsLoop profKW _ _ _ _
          (keeps_skillContentRow _ _ _ _ _ _ h)

/-- The crop extractor keeps the fields of its record literal. -/
theorem crop_mandatory : ∀ (soup : Soup) (title : String),
    hasMandatory (parse_crop_data soup title) := by
  intro soup title
  have hk : ∀ k, (dictFind [("type", Val.s "crop"), ("name", Val.s title),
        ("parsing_warnings", Val.strs [])] k).isSome = true →
      (dictFind (parse_crop_data soup title) k).isSome = true := by
    intro k h
    unfold parse_crop_data
    dsimp only []
    repeat' split
    all_goals first
      | exact h
      | exact keeps_foldl _ keeps_cropInfoboxRow _ _ _ h
      | exact dictFind_dictInsert_isSome _ _ _ _ h
      | exact dictFind_dictInsert_isSome _ _ _ _
          (keeps_foldl _ keeps_cropInfoboxRow _ _ _ h)
  exact ⟨hk "type" rfl, hk "name" rfl, hk "parsing_warnings" rfl⟩

/-- The NPC extractor keeps the fields of its record literal. -/
theorem npc_mandatory : ∀ (soup : Soup) (title : String),
    hasMandatory (parse_npc_data soup title) := by
  intro soup title
  have hk : ∀ k, (dictFind [("type", Val.s "npc"), ("name", Val.s title),
        ("parsing_warnings", Val.strs [])] k).isSome = true →
      (dictFind (parse_npc_data soup title) k).isSome = true := by
    intro k h
    unfold parse_npc_data
    dsimp only []
    repeat' split
    all_goals first
      | exact h
      | exact keeps_npcGifts soup _ _ h
      | exact keeps_npcGifts soup _ _ (keeps_foldl _ keeps_npcInfoboxRow _ _ _ h)
      | exact dictFind_dictInsert_isSome _ _ _ _ (keeps_npcGifts soup _ _ h)
      | exact dictFind_dictInsert_isSome _ _ _ _
          (keeps_npcGifts soup _ _ (keeps_foldl _ keeps_npcInfoboxRow _ _ _ h))
  exact ⟨hk "type" rfl, hk "name" rfl, hk "parsing_warnings" rfl⟩

/-- The bundle extractor keeps the fields of its record literal. -/
theorem bundle_mandatory : ∀ (soup : Soup) (title : String) (bf : BundlesFetch),
    hasMandatory (parse_bundle_data soup title bf) := by
  intro soup title bf
  have hk : ∀ k, (dictFind [("type", Val.s "bundle"), ("name", Val.s title),
        ("requirements", Val.vlist []), ("parsing_warnings", Val.strs [])] k).isSome
          = true →
      (dictFind (parse_bundle_data soup title bf) k).isSome = true := by
    intro k h
    unfold parse_bundle_data
    dsimp only []
    repeat' split
    all_goals first
      | exact h
      | exact dictFind_dictInsert_isSome _ _ _ _ h
      | exact keeps_bundleOriginal _ _ _ h
      | exact keeps_bundleOriginal _ _ _ (keeps_addWarning _ _ _ h)
  exact ⟨hk "type" rfl, hk "name" rfl, hk "parsing_warnings" rfl⟩

/-- The fish extractor keeps the fields of its record literal. -/
theorem fish_mandatory : ∀ (soup : Soup) (title : String),
    hasMandatory (parse_fish_data soup title) := by
  intro soup title
  have hk : ∀ k, (dictFind [("type", Val.s "fish"), ("name", Val.s title),
        ("parsing_warnings", Val.strs [])] k).isSome = true →
      (dictFind (parse_fish_data soup title) k).isSome = true := by
    intro k h
    unfold parse_fish_data
    dsimp only []
    repeat' split
    all_goals first
      | exact h
      | exact keeps_foldl _ keeps_fishInfoboxRow _ _ _ h
  exact ⟨hk "type" rfl, hk "name" rfl, hk "parsing_warnings" rfl⟩

/-- The recipe extractor keeps the fields of its record literal. -/
theorem recipe_mandatory : ∀ (soup : Soup) (title : String),
    hasMandatory (parse_recipe_data soup title) := by
  intro soup title
  have hk : ∀ k, (dictFind [("type", Val.s "recipe"), ("name", Val.s title),
        ("parsing_warnings", Val.strs [])] k).isSome = true →
      (dictFind (parse_recipe_data soup title) k).isSome = true := by
    intro k h
    unfold parse_recipe_data
    dsimp only []
    repeat' split
    all_goals first
      | exact h
      | exact keeps_foldl _ keeps_recipeInfoboxRow _ _ _ h
      | exact dictFind_dictInsert_isSome _ _ _ _ h
      | exact dictFind_dictInsert_isSome _ _ _ _
          (keeps_foldl _ keeps_recipeInfoboxRow _ _ _ h)
  exact ⟨hk "type" rfl, hk "name" rfl, hk "parsing_warnings" rfl⟩

/-- The skill extractor keeps the fields of its record literal. -/
theorem skill_mandatory : ∀ (soup : Soup) (title : String),
    hasMandatory (parse_skill_data soup title) := by
  intro soup title
  have hk : ∀ k, (dictFind [("type", Val.s "skill"), ("name", Val.s title),
        ("levels", Val.imap []), ("professions", Val.imap []),
        ("parsing_warnings", Val.strs [])] k).isSome = true →
      (dictFind (parse_skill_data soup title) k).isSome = true := by
    intro k h
    unfold parse_skill_data
    dsimp only []
    repeat' split
    all_goals first
      | exact h
      | exact keeps_skillRowsLoop profession_keywords _ _ _ _ h
  exact ⟨hk "type" rfl, hk "name" rfl, hk "parsing_warnings" rfl⟩

/-- One quest-table data row only ever appends quests. -/
theorem keeps_questRowStep (headers : List String) (qt : String) :
    ∀ (row : Row) (d : Rec) (k : String),
      (dictFind d k).isSome = true →
      (dictFind (questRowStep headers qt d row) k).isSome = true := by
  intro row d k h
  unfold questRowStep
  dsimp only []
  repeat' split
  all_goals first | exact h | exact keeps_recAppendToList _ _ _ _ h

/-- One quest table only ever appends quests. -/
theorem keeps_questTableStep : ∀ (t : Table) (d : Rec) (k : String),
    (dictFind d k).isSome = true →
    (dictFind (questTableStep d t) k).isSome = true := by
  intro t d k h
  unfold questTableStep
  dsimp only []
  repeat' split
  all_goals first
    | exact h
    | exact keeps_foldl _ (keeps_questRowStep _ _) _ _ _ h

/-- One achievements-table data row only ever appends achievements. -/
theorem keeps_achievementRowStep
    (headers : List String) (ai di ui : Option Nat) :
    ∀ (row : Row) (d : Rec) (k : String),
      (dictFind d k).isSome = true →
      (dictFind (achievementRowStep headers ai di ui d row) k).isSome = true := by
  intro row d k h
  unfold achievementRowStep
  dsimp only []
  repeat' split
  all_goals first | exact h | exact keeps_recAppendToList _ _ _ _ h

/-- One collection-table data row only ever appends items. -/
theorem keeps_collectionRowStep
    (headers : List String) (ni di si li : Option Nat) :
    ∀ (row : Row) (d : Rec) (k : String),
      (dictFind d k).isSome = true →
      (dictFind (collectionRowStep headers ni di si li d row) k).isSome = true := by
  intro row d k h
  unfold collectionRowStep
  dsimp only []
  repeat' split
  all_goals first | exact h | exact keeps_recAppendToList _ _ _ _ h

/-- One collection table only ever appends items. -/
theorem keeps_collectionTableStep : ∀ (t : Table) (d : Rec) (k : String),
    (dictFind d k).isSome = true →
    (dictFind (collectionTableStep d t) k).isSome = true := by
  intro t d k h
  unfold collectionTableStep
  dsimp only []
  repeat' split
  all_goals first
    | exact h
    | exact keeps_foldl _ (keeps_collectionRowStep _ _ _ _ _) _ _ _ h

/-- The quest extractor keeps the fields of its record literal. -/
theorem quest_mandatory : ∀ (soup : Soup) (title : String),
    hasMandatory (parse_quest_data soup title) := by
  intro soup title
  have hk : ∀ k, (dictFind [("type", Val.s "quests"), ("name", Val.s title),
        ("story_quests", Val.vlist []), ("special_orders", Val.vlist []),
        ("qi_special_orders", Val.vlist []), ("parsing_warnings", Val.strs [])]
        k).isSome = true →
      (dictFind (parse_quest_data soup title) k).isSome = true := by
    intro k h
    unfold parse_quest_data
    dsimp only []
    split
    · exact h
    · exact keeps_foldl _ keeps_questTableStep _ _ _ h
  exact ⟨hk "type" rfl, hk "name" rfl, hk "parsing_warnings" rfl⟩

/-- The achievement extractor keeps the fields of its record literal. -/
theorem achievement_mandatory : ∀ (soup : Soup) (title : String),
    hasMandatory (parse_achievement_data soup title) := by
  intro soup title
  have hk : ∀ k, (dictFind [("type", Val.s "achievements"), ("name", Val.s title),
        ("achievements", Val.vlist []), ("parsing_warnings", Val.strs [])]
        k).isSome = true →
      (dictFind (parse_achievement_data soup title) k).isSome = true := by
    intro k h
    unfold parse_achievement_data
    dsimp only []
    repeat' split
    all_goals first
      | exact h
      | exact keeps_foldl _ (keeps_achievementRowStep _ _ _ _) _ _ _ h
  exact ⟨hk "type" rfl, hk "name" rfl, hk "parsing_warnings" rfl⟩

/-- The collection extractor keeps the fields of its record literal. -/
theorem collection_mandatory : ∀ (soup : Soup) (title : String) (ct : String),
    hasMandatory (parse_collection_list soup title ct) := by
  intro soup title ct
  have hk : ∀ k, (dictFind [("type", Val.s ct), ("name", Val.s title),
        ("items", Val.vlist []), ("parsing_warnings", Val.strs [])] k).isSome = true →
      (dictFind (parse_collection_list soup title ct) k).isSome = true := by
    intro k h
    unfold parse_collection_list
    dsimp only []
    split
    · exact h
    · exact keeps_foldl _ keeps_collectionTableStep _ _ _ h
  exact ⟨hk "type" rfl, hk "name" rfl, hk "parsing_warnings" rfl⟩

/-- The generic-item extractor keeps the fields of its record literal. -/
theorem generic_mandatory : ∀ (soup : Soup) (title : String) (it : String),
    hasMandatory (parse_generic_item soup title it) := by
  intro soup title it
  have hk : ∀ k, (dictFind [("type", Val.s it), ("name", Val.s title),
        ("parsing_warnings", Val.strs [])] k).isSome = true →
      (dictFind (parse_generic_item soup title it) k).isSome = true := by
    intro k h
    unfold parse_generic_item
    dsimp only []
    repeat' split
    all_goals first
      | exact h
      | exact keeps_foldl _ keeps_genericRow _ _ _ h
  exact ⟨hk "type" rfl, hk "name" rfl, hk "parsing_warnings" rfl⟩

/-- The dispatcher inherits the invariant from whichever extractor it calls. -/
theorem page_data_mandatory : ∀ (soup : Soup) (title : String)
    (categories : List String) (bf : BundlesFetch),
    hasMandatory (parse_page_data soup title categories bf) := by
  intro soup title categories bf
  unfold parse_page_data
  dsimp only []
  repeat' split
  all_goals first
    | exact crop_mandatory soup title
    | exact npc_mandatory soup title
    | exact bundle_mandatory soup title bf
    | exact fish_mandatory soup title
    | exact recipe_mandatory soup title
    | exact skill_mandatory soup title
    | exact quest_mandatory soup title
    | exact achievement_mandatory soup title
    | exact collection_mandatory soup title _
    | exact generic_mandatory soup title _

/-- C1.  Every extractor is a total function of the parsed page (so no input
raises), and for every markup and page title the returned record contains the
`type`, `name` and `parsing_warnings` fields; the same holds of the
`parse_page_data` dispatcher for every category list.  In particular, the
crop extractor on the soup of `"<html></html>"` with title `"X"` returns
exactly the record with type `"crop"`, name `"X"` and an empty
parsing-warnings list. -/
theorem claim1_extractors_mandatory_fields :
    (∀ (soup : Soup) (title : String), hasMandatory (parse_crop_data soup title)) ∧
    (∀ (soup : Soup) (title : String), hasMandatory (parse_npc_data soup title)) ∧
    (∀ (soup : Soup) (title : String) (bf : BundlesFetch),
      hasMandatory (parse_bundle_data soup title bf)) ∧
    (∀ (soup : Soup) (title : String), hasMandatory (parse_fish_data soup title)) ∧
    (∀ (soup : Soup) (title : String), hasMandatory (parse_recipe_data soup title)) ∧
    (∀ (soup : Soup) (title : String), hasMandatory (parse_skill_data soup title)) ∧
    (∀ (soup : Soup) (title : String), hasMandatory (parse_quest_data soup title)) ∧
    (∀ (soup : Soup) (title : String),
      hasMandatory (parse_achievement_data soup title)) ∧
    (∀ (soup : Soup) (title ct : String),
      hasMandatory (parse_collection_list soup title ct)) ∧
    (∀ (soup : Soup) (title it : String),
      hasMandatory (parse_generic_item soup title it)) ∧
    (∀ (soup : Soup) (title : String) (categories : List String) (bf : BundlesFetch),
      hasMandatory (parse_page_data soup title categories bf)) ∧
    parse_crop_data emptySoup "X" =
      [("type", Val.s "crop"), ("name", Val.s "X"), ("parsing_warnings", Val.strs [])] :=
  ⟨crop_mandatory, npc_mandatory, bundle_mandatory, fish_mandatory, recipe_mandatory,
   skill_mandatory, quest_mandatory, achievement_mandatory, collection_mandatory,
   generic_mandatory, page_data_mandatory, rfl⟩

end Farmhand
